import Mathlib

/-!
# Verification of the `nuclear_scheduler` simulation engine

A shallow embedding, in Lean 4, of `src/streamlit_pages_app/utils/nuclear_scheduler.py`:
the Graph Store (`_build_dependency_map` / `_build_successor_map`), the Readiness
Model (`_get_initial_prob`, the initial-time estimates), the Critical-Path
Evaluator (`_find_critical_path` with its memoization cache and recursion-stack
cycle guard), the Year-by-Year Scheduler (`run_simulation`) and the Strategic
Forward Simulator (`_run_forward_simulation`, `_check_for_deployments`, energy
accounting).

Modelling conventions:
* Python floats are idealised as `ℚ` wherever the code only adds, subtracts,
  multiplies, divides, compares and takes max/min (all state evolution);
  `float('inf')` in critical-path times is `⊤` in `WithTop ℚ`.
* The discounting code raises `1.05` to possibly non-integral exponents, so the
  energy layer is `ℝ`-valued, with `x ** e` embedded as real `rpow`.
* Python dicts are insertion-ordered association lists with unique keys
  (`dictInsert` overwrites in place, as a Python dict assignment does).
* Recursion of `_find_critical_path` is embedded with an explicit fuel
  parameter; `none` marks fuel exhaustion.  The Python recursion depth is
  bounded by the number of snapshot nodes not on the recursion stack plus one
  (each nested call pushes a fresh snapshot node onto the stack), so fuel
  `snapshot length + 2` always suffices at an empty stack.
-/

namespace NuclearSched

/-! ## Association-list dictionaries (Python `dict`, insertion ordered) -/

def dictLookup {κ α : Type} [BEq κ] (d : List (κ × α)) (k : κ) : Option α :=
  (d.find? (fun p => p.1 == k)).map (·.2)

def dictMem {κ α : Type} [BEq κ] (d : List (κ × α)) (k : κ) : Bool :=
  d.any (fun p => p.1 == k)

/-- Python `d[k] = v`: overwrite in place if the key exists, else append. -/
def dictInsert {κ α : Type} [BEq κ] (d : List (κ × α)) (k : κ) (v : α) :
    List (κ × α) :=
  match d with
  | [] => [(k, v)]
  | p :: rest => if p.1 == k then (k, v) :: rest else p :: dictInsert rest k v

/-- Update the value at `k` in place (no-op when the key is absent). -/
def dictUpdate {κ α : Type} [BEq κ] (d : List (κ × α)) (k : κ) (f : α → α) :
    List (κ × α) :=
  match d with
  | [] => []
  | p :: rest => if p.1 == k then (p.1, f p.2) :: rest else p :: dictUpdate rest k f

def dictKeys {κ α : Type} (d : List (κ × α)) : List κ := d.map (·.1)

/-! ## Data model

`InputNode` is a node record of `graph_data['graph']['nodes']`; `trlProjected`
records presence of the `'trl_projected_5_10_years'` key.  `InputEdge` is an
edge record: `target` and `targets` are both optional, as in the JSON. -/

structure InputNode where
  id : String
  label : String
  typ : Option String
  trl_current : Option String
  trlProjected : Bool
  deriving Repr, DecidableEq

structure InputEdge where
  source : String
  target : Option String
  targets : Option (List String)
  deriving Repr, DecidableEq

/-- A node of a mutable simulation snapshot: the input metadata (kept by the
`copy.deepcopy` of `self.nodes`) together with the simulation-scoped fields the
two simulators attach. -/
structure SimNode where
  label : String
  typ : Option String
  trl_current : Option String
  trlProjected : Bool
  initial_time : ℚ
  time_remaining : ℚ
  prob_of_success : ℚ
  is_complete : Bool
  deployment_year : Option Int
  deployed_capacity_mw : ℚ
  deriving Repr, DecidableEq

/-! ## Model configuration constants (module header of `nuclear_scheduler.py`) -/

def DISCOUNT_RATE : ℚ := 5/100
def YEARS_OF_OPERATION : ℕ := 60
def AVG_PLANT_CAPACITY_MW : ℚ := 1000
def CAPACITY_FACTOR : ℚ := 90/100
/-- `datetime.now().year` frozen at a representative value; no claim depends on it. -/
def CURRENT_YEAR : ℚ := 2025
def MWH_TO_TWH : ℚ := 1000000

def TRL_PROBABILITY_MAP : List (List Char × ℚ) :=
  [("1".data, 10/100), ("2".data, 20/100), ("2-3".data, 25/100), ("3".data, 30/100),
   ("3-4".data, 40/100), ("4".data, 50/100), ("4-5".data, 60/100), ("5".data, 70/100),
   ("5-6".data, 75/100), ("6".data, 80/100), ("6-7".data, 85/100), ("7".data, 90/100),
   ("7-8".data, 95/100), ("8".data, 98/100), ("9".data, 1),
   ("default".data, 60/100)]

/-! ## Character-level string helpers

Core `String.splitOn`/`trim`/`toNat?` are position-based loops that neither
`simp` nor the kernel can evaluate symbolically, so the handful of string
operations the scheduler needs are re-implemented structurally on `s.data`. -/

/-- `s.split(sep)[0]`: the prefix before the first occurrence of `sep`
(the whole string when `sep` is absent). -/
def takeUntilChar (sep : Char) : List Char → List Char
  | [] => []
  | c :: cs => if c = sep then [] else c :: takeUntilChar sep cs

def isPySpace (c : Char) : Bool := c = ' ' ∨ c = '\t' ∨ c = '\n' ∨ c = '\r'

/-- Python `str.strip()` on the common ASCII whitespace. -/
def trimChars (l : List Char) : List Char :=
  ((l.dropWhile isPySpace).reverse.dropWhile isPySpace).reverse

/-- Split on every occurrence of `sep`, Python `s.split(sep)` (with explicit
separator: `"" ↦ [""]`, and empty components are kept). -/
def splitChar (sep : Char) : List Char → List (List Char)
  | [] => [[]]
  | c :: cs =>
    let r := splitChar sep cs
    if c = sep then [] :: r
    else (c :: r.headD []) :: r.tailD []

def charDigitVal (c : Char) : Option ℕ :=
  if 48 ≤ c.toNat ∧ c.toNat ≤ 57 then some (c.toNat - 48) else none

def decDigitsValAux : ℕ → List Char → Option ℕ
  | acc, [] => some acc
  | acc, c :: cs =>
    match charDigitVal c with
    | some d => decDigitsValAux (10 * acc + d) cs
    | none => none

/-- The value of a non-empty all-digit string; `none` otherwise. -/
def decDigitsVal (l : List Char) : Option ℕ :=
  if l = [] then none else decDigitsValAux 0 l

/-! ## Readiness Model -/

/-- `_get_initial_prob` (lines 80-84), on the node's `trl_current` value
(`none` when the key is absent): take the first space-separated token, then
the stripped first `;`-separated token, and look it up in
`TRL_PROBABILITY_MAP` with the `'default'` probability as fallback. -/
def initialProbOfTrl (trl : Option String) : ℚ :=
  let s0 := (trl.getD "default").data
  let s1 := if ' ' ∈ s0 then takeUntilChar ' ' s0 else s0
  let s2 := if ';' ∈ s1 then trimChars (takeUntilChar ';' s1) else s1
  (dictLookup TRL_PROBABILITY_MAP s2).getD (60/100)

/-- Python `float(...)` restricted to plain unsigned decimal literals
(`"8"`, `"8.8"`, `".5"`, `"5."`, surrounding whitespace); every other string —
in particular the empty string and anything non-numeric — is a `ValueError`,
i.e. `none`.  (Exotic accepted forms such as signs, exponents, `inf`, `nan` or
underscore separators never survive the `split('-')[0].split(' ')[0]`
preprocessing of TRL strings and are not modelled.) -/
def parseDecimal (s : List Char) : Option ℚ :=
  let t := trimChars s
  match splitChar '.' t with
  | [a] => (decDigitsVal a).map (fun n => (n : ℚ))
  | [a, b] =>
    match decDigitsVal a, decDigitsVal b with
    | some na, some nb => some ((na : ℚ) + (nb : ℚ) / (10 : ℚ) ^ b.length)
    | some na, none => if b = [] then some ((na : ℚ)) else none
    | none, some nb => if a = [] then some ((nb : ℚ) / (10 : ℚ) ^ b.length) else none
    | none, none => none
  | _ => none

/-- `float(node.get('trl_current', '1').split('-')[0].split(' ')[0])`, the
numeric readiness value shared by `run_simulation` (line 148) and
`_get_initial_time_estimate` (line 427); `none` is the `ValueError` branch. -/
def trlNumeric (trl : Option String) : Option ℚ :=
  parseDecimal (takeUntilChar ' ' (takeUntilChar '-' (trl.getD "1").data))

/-- The raw initial-time estimate of `run_simulation` (lines 143-151):
`7.5` under the projected-readiness annotation, else `(9 - trl) * 2.5`,
else the `5.0` fallback. -/
def runSimRawEstimate (n : InputNode) : ℚ :=
  if n.trlProjected then 15/2
  else
    match trlNumeric n.trl_current with
    | some v => (9 - v) * (5/2)
    | none => 5

/-- `_get_initial_time_estimate` (lines 421-430), used by the Strategic
Forward Simulator: same branches, but the parsed case is floored at `0.1`. -/
def getInitialTimeEstimate (n : InputNode) : ℚ :=
  if n.trlProjected then 15/2
  else
    match trlNumeric n.trl_current with
    | some v => max (1/10) ((9 - v) * (5/2))
    | none => 5

/-! ## Seeding the per-run snapshots -/

/-- Seeding of one node by `run_simulation` (lines 141-156).  The
`initial_time` field (the later risk-rate divisor) is floored at `0.1`, while
`time_remaining` and the completion test use the raw estimate. -/
def seedNodeRS (n : InputNode) : SimNode :=
  let e := runSimRawEstimate n
  { label := n.label, typ := n.typ, trl_current := n.trl_current,
    trlProjected := n.trlProjected,
    initial_time := if 0 < e then e else 1/10,
    time_remaining := e,
    prob_of_success := initialProbOfTrl n.trl_current,
    is_complete := decide (e ≤ 0),
    deployment_year := none,
    deployed_capacity_mw := 0 }

/-- Seeding of one node by `_run_forward_simulation` (lines 282-289). -/
def seedNodeFwd (n : InputNode) : SimNode :=
  let e := getInitialTimeEstimate n
  { label := n.label, typ := n.typ, trl_current := n.trl_current,
    trlProjected := n.trlProjected,
    initial_time := e,
    time_remaining := e,
    prob_of_success := initialProbOfTrl n.trl_current,
    is_complete := decide (e ≤ 0),
    deployment_year := none,
    deployed_capacity_mw := 0 }

/-- `self.nodes = {node['id']: node for node in graph_data['graph']['nodes']}`:
an insertion-ordered dict, later duplicates overwriting earlier ones. -/
def buildNodesDict (ns : List InputNode) : List (String × InputNode) :=
  ns.foldl (fun d n => dictInsert d n.id n) []

def seedRS (nodes : List (String × InputNode)) : List (String × SimNode) :=
  nodes.map (fun p => (p.1, seedNodeRS p.2))

def seedFwd (nodes : List (String × InputNode)) : List (String × SimNode) :=
  nodes.map (fun p => (p.1, seedNodeFwd p.2))

/-! ## Graph Store -/

/-- `edge.get('targets', [edge.get('target')])`, flattened to one uniform list
of (possibly missing) target references. -/
def effTargets (e : InputEdge) : List (Option String) :=
  match e.targets with
  | some ts => ts.map some
  | none => [e.target]

/-- Python truthiness of an optional string (`None` and `''` are falsy). -/
def truthyStr : Option String → Bool
  | none => false
  | some s => !(s == "")

/-- The body of the inner loop of `_build_dependency_map` (lines 45-47) for
one `(source, target)` pair: `if target_id and target_id in deps:
deps[target_id].append(source_id)`. -/
def depAction (d : List (String × List String)) (p : String × Option String) :
    List (String × List String) :=
  match p.2 with
  | some tid =>
    if tid ≠ "" ∧ dictMem d tid = true then dictUpdate d tid (fun l => l ++ [p.1]) else d
  | none => d

/-- The body of the inner loop of `_build_successor_map` (lines 55-57) for one
`(source, target)` pair: `if source_id and source_id in succ:
succ[source_id].append(target_id)` — the raw target reference is appended,
possibly unknown or `None`. -/
def succAction (d : List (String × List (Option String))) (p : String × Option String) :
    List (String × List (Option String)) :=
  if p.1 ≠ "" ∧ dictMem d p.1 = true then dictUpdate d p.1 (fun l => l ++ [p.2]) else d

/-- `_build_dependency_map` (lines 40-48): starting from `{id: [] for id in
nodes}`, run the per-pair append over every edge and flattened target. -/
def buildDependencyMap (ids : List String) (edges : List InputEdge) :
    List (String × List String) :=
  edges.foldl
    (fun d e => (effTargets e).foldl (fun d t => depAction d (e.source, t)) d)
    (ids.map (fun i => (i, [])))

/-- `_build_successor_map` (lines 50-58). -/
def buildSuccessorMap (ids : List String) (edges : List InputEdge) :
    List (String × List (Option String)) :=
  edges.foldl
    (fun d e => (effTargets e).foldl (fun d t => succAction d (e.source, t)) d)
    (ids.map (fun i => (i, [])))

/-- The edges flattened to `(source, target-reference)` pairs in processing
order; both adjacency builders process exactly this sequence. -/
def flatEdges (edges : List InputEdge) : List (String × Option String) :=
  (edges.map (fun e => (effTargets e).map (fun t => (e.source, t)))).flatten

/-- The prerequisite row the given edges describe for node `n`: the sources of
all flattened pairs targeting `n`, in order. -/
def depContribs (n : String) (ps : List (String × Option String)) : List String :=
  ps.filterMap (fun p => if p.2 == some n then some p.1 else none)

/-- The successor row the given edges describe for node `s`: the raw target
references of all flattened pairs with source `s`, in order. -/
def succContribs (s : String) (ps : List (String × Option String)) :
    List (Option String) :=
  (ps.filter (fun p => p.1 == s)).map (·.2)

/-! ## Critical-Path Evaluator (`_find_critical_path`, lines 86-118) -/

abbrev CPVal := WithTop ℚ × ℚ

abbrev CPCache := List (String × CPVal)

/-- The scheduler context an evaluation runs in: the prerequisite map and the
mutable node-state snapshot (`current_nodes`). -/
structure SchedEnv where
  deps : List (String × List String)
  snap : List (String × SimNode)
  deriving Repr, DecidableEq

/-- Evaluate a list of prerequisite ids left to right, threading the
memoization cache; `none` propagates fuel exhaustion. -/
def evalListCP {V : Type} (eval : CPCache → String → Option V × CPCache) :
    CPCache → List String → Option (List V) × CPCache
  | cache, [] => (some [], cache)
  | cache, x :: xs =>
    match eval cache x with
    | (none, c) => (none, c)
    | (some v, c) =>
      match evalListCP eval c xs with
      | (none, c2) => (none, c2)
      | (some vs, c2) => (some (v :: vs), c2)

/-- `max(prereq_times) if prereq_times else 0.0` (line 110). -/
def pyMaxTimes (l : List (WithTop ℚ)) : WithTop ℚ :=
  match l with
  | [] => 0
  | x :: xs => xs.foldl max x

/-- `reduce(operator.mul, prereq_probs, 1)` (line 111). -/
def pyProd (l : List ℚ) : ℚ := l.foldl (· * ·) 1

/-- `_find_critical_path(node_id, current_nodes)`.  `stack` is
`self.recursion_stack` (the ids on the active recursion path), `cache` is
`self.memoization_cache`, threaded in and out because it persists on the
scheduler instance.  Mirrors the source line by line: cycle guard first, then
cache hit, then the missing-node early `(0, 1.0)` return, then the
no-prerequisite return (which does NOT memoize), then the recursive case,
which memoizes `(own time + max of prerequisite times, own probability ×
product of prerequisite probabilities)`. -/
def findCriticalPath (env : SchedEnv) : ℕ → List String → CPCache → String →
    Option CPVal × CPCache
  | 0, _, cache, _ => (none, cache)
  | fuel + 1, stack, cache, nid =>
    if nid ∈ stack then (some (⊤, 0), cache)
    else
      match dictLookup cache nid with
      | some v => (some v, cache)
      | none =>
        match dictLookup env.snap nid with
        | none => (some (((0 : ℚ) : WithTop ℚ), (1 : ℚ)), cache)
        | some node =>
          let prereqIds := (dictLookup env.deps nid).getD []
          if prereqIds = [] then
            (some (((node.time_remaining : ℚ) : WithTop ℚ), node.prob_of_success), cache)
          else
            match evalListCP (findCriticalPath env fuel (nid :: stack)) cache prereqIds with
            | (none, c) => (none, c)
            | (some vals, c) =>
              let totalT := ((node.time_remaining : ℚ) : WithTop ℚ) + pyMaxTimes (vals.map Prod.fst)
              let totalP := node.prob_of_success * pyProd (vals.map Prod.snd)
              (some (totalT, totalP), dictInsert c nid (totalT, totalP))

/-- A fuel budget that always suffices for a top-level (empty-stack) call:
the recursion depth is bounded by the number of snapshot nodes off the stack
plus one, because descending past the cycle guard, the cache and the
missing-node check pushes a fresh snapshot node onto the stack. -/
def cpFuel (env : SchedEnv) : ℕ := env.snap.length + 2

/-- A top-level evaluator call, `self._find_critical_path(nid, snap)`, with the
recursion stack empty (it is left empty between top-level calls: every `add`
on the recursion path is matched by a `remove`). -/
def findCriticalPathTop (env : SchedEnv) (cache : CPCache) (nid : String) :
    Option CPVal × CPCache :=
  findCriticalPath env (cpFuel env) [] cache nid

/-! ## `_get_downstream_concepts` (lines 60-78) -/

/-- One BFS over the successor map.  The queue and visited set hold raw
successor references (possibly `None`, as appended by
`_build_successor_map`).  Python's `list(concepts)` iterates a `set` in an
unspecified order; the model keeps first-visit order, which only permutes the
summation order of pathway energies. -/
def bfsConcepts (nodes : List (String × InputNode))
    (succ : List (String × List (Option String))) :
    ℕ → List (Option String) → List (Option String) → List String → List String
  | 0, _, _, concepts => concepts
  | _ + 1, [], _, concepts => concepts
  | fuel + 1, curr :: q, visited, concepts =>
    if curr ∈ visited then bfsConcepts nodes succ fuel q visited concepts
    else
      let visited2 := visited ++ [curr]
      let concepts2 :=
        match curr with
        | some cid =>
          match dictLookup nodes cid with
          | some n => if n.typ = some "ReactorConcept" ∧ cid ∉ concepts then concepts ++ [cid] else concepts
          | none => concepts
        | none => concepts
      let succs := (match curr with
        | some cid => (dictLookup succ cid).getD []
        | none => [])
      let q2 := q ++ succs.filter (fun s => s ∉ visited2)
      bfsConcepts nodes succ fuel q2 visited2 concepts2

/-- Total queue traffic is bounded by the initial element plus the total
length of all successor lists, and every dequeue consumes one fuel unit twice
over; this budget therefore always suffices. -/
def bfsFuel (succ : List (String × List (Option String))) : ℕ :=
  2 * (succ.foldl (fun a p => a + p.2.length) 0) + 4

/-- `_get_downstream_concepts(start_node_id)`: all `ReactorConcept` ids
reachable forward from the start node (inclusive). -/
def getDownstreamConcepts (nodes : List (String × InputNode))
    (succ : List (String × List (Option String))) (startId : String) : List String :=
  bfsConcepts nodes succ (bfsFuel succ) [some startId] [] []

/-! ## Year-by-Year Scheduler: the advance phase of `run_simulation`
(lines 161-182) -/

/-- `node.get('type') in ['Milestone', 'EnablingTechnology']`. -/
def isTracked (n : SimNode) : Bool :=
  n.typ = some "Milestone" ∨ n.typ = some "EnablingTechnology"

/-- `(1 - self._get_initial_prob(node)) / node['initial_time']`, the uniform
annual risk-reduction increment. -/
def riskRate (n : SimNode) : ℚ :=
  (1 - initialProbOfTrl n.trl_current) / n.initial_time

/-- `all(sim_nodes[pid]['is_complete'] for pid in prereqs)`.  A prerequisite id
absent from the snapshot is treated as incomplete here; the Python code would
raise `KeyError` on it, so theorems that rely on this test carry presence
hypotheses for the prerequisites involved. -/
def prereqsAllComplete (deps : List (String × List String))
    (st : List (String × SimNode)) (nid : String) : Bool :=
  ((dictLookup deps nid).getD []).all
    (fun pid => ((dictLookup st pid).map (·.is_complete)).getD false)

/-- The scheduler's per-node mutation in the `Active` branch (lines 174-180):
decrement the clock (only while it is positive), add the fixed risk-reduction
increment — uncapped — and, when the clock reaches `≤ 0`, mark the node
complete forcing probability `1.0`. -/
def rsAdvanceFields (n : SimNode) : SimNode :=
  let n1 := if 0 < n.time_remaining then
      { n with
        time_remaining := n.time_remaining - 1,
        prob_of_success := n.prob_of_success + riskRate n }
    else n
  if n1.time_remaining ≤ 0 then
    { n1 with is_complete := true, prob_of_success := 1 }
  else n1

/-- The body of the first per-year loop of `run_simulation` for one node
(lines 162-182): skip untracked nodes, record `Completed`/`Active`/`Pending`
in the year's status row, and on `Active` apply `rsAdvanceFields`.  The fold
threads the mutable `sim_nodes` dict, so a node processed later in the same
year sees earlier same-year completions. -/
def processNodeRS (deps : List (String × List String))
    (acc : List (String × SimNode) × List (String × String)) (nid : String) :
    List (String × SimNode) × List (String × String) :=
  let st := acc.1
  let statuses := acc.2
  match dictLookup st nid with
  | none => acc
  | some n =>
    if ¬ (isTracked n = true) then acc
    else
      let isActive := prereqsAllComplete deps st nid
      if n.is_complete then (st, dictInsert statuses n.label "Completed")
      else if isActive then
        (dictInsert st nid (rsAdvanceFields n), dictInsert statuses n.label "Active")
      else (st, dictInsert statuses n.label "Pending")

/-- One simulated year of the advance phase: fold over the node ids in dict
order, returning the mutated snapshot and the year's status row
(`status_table[label][year]`, later writes to a duplicated label winning). -/
def yearStepRS (deps : List (String × List String)) (st : List (String × SimNode)) :
    List (String × SimNode) × List (String × String) :=
  (dictKeys st).foldl (processNodeRS deps) (st, [])

/-- The snapshot and last status row after `k` simulated years of the advance
phase, starting from the seeded snapshot. -/
def runRSAdvance (deps : List (String × List String)) (st0 : List (String × SimNode)) :
    ℕ → List (String × SimNode) × List (String × String)
  | 0 => (st0, [])
  | k + 1 => yearStepRS deps (runRSAdvance deps st0 k).1

/-! ## Strategic Forward Simulator: state evolution (lines 270-383) -/

/-- `_apply_acceleration` (lines 321-329): one year of acceleration with the
clock floored at `0` and the probability capped at `1.0`. -/
def applyAcceleration (n : SimNode) : SimNode :=
  if 0 < n.time_remaining then
    let n1 := { n with time_remaining := max 0 (n.time_remaining - 1) }
    if 0 < n1.initial_time then
      { n1 with prob_of_success := min 1 (n1.prob_of_success + riskRate n1) }
    else n1
  else n

/-- The field updates of an active forward-simulation node (lines 344-355):
decrement the clock, cap the risk-reduced probability at `1.0`, and complete
(forcing probability `1.0`) when the clock reaches `≤ 0`. -/
def fwdAdvanceFields (n : SimNode) : SimNode :=
  let n1 := { n with time_remaining := n.time_remaining - 1 }
  let n2 := if 0 < n1.initial_time then
      { n1 with prob_of_success := min 1 (n1.prob_of_success + riskRate n1) }
    else n1
  if n2.time_remaining ≤ 0 then
    { n2 with is_complete := true, prob_of_success := 1 }
  else n2

/-- The body of `_advance_technologies_one_year` for one node (lines 333-355):
like the yearly scheduler's advance but with the probability capped at `1.0`
and the completion test nested inside the active branch. -/
def advanceNodeFwd (deps : List (String × List String))
    (st : List (String × SimNode)) (nid : String) : List (String × SimNode) :=
  match dictLookup st nid with
  | none => st
  | some n =>
    if ¬ (isTracked n = true) then st
    else if n.is_complete then st
    else if prereqsAllComplete deps st nid && decide (0 < n.time_remaining) then
      dictInsert st nid (fwdAdvanceFields n)
    else st

/-- `_advance_technologies_one_year` (lines 331-355). -/
def advanceTechnologiesOneYear (deps : List (String × List String))
    (st : List (String × SimNode)) : List (String × SimNode) :=
  (dictKeys st).foldl (advanceNodeFwd deps) st

/-- Python truthiness of `node.get('deployment_year')`: `None` — and the year
`0` — are falsy. -/
def truthyYear : Option Int → Bool
  | none => false
  | some y => !(y == 0)

/-- The body of `_check_for_deployments` for one node (lines 361-381): a
`ReactorConcept` with a falsy `deployment_year` whose direct prerequisites are
all complete is evaluated by the Critical-Path Evaluator — against the
instance's memoization cache, which is threaded, never cleared — and deploys
this year exactly when the returned probability strictly exceeds `0.7`. -/
def checkNodeDeploy (deps : List (String × List String)) (year : Int)
    (acc : List (String × SimNode) × CPCache × List String) (nid : String) :
    List (String × SimNode) × CPCache × List String :=
  let st := acc.1
  let cache := acc.2.1
  let newly := acc.2.2
  match dictLookup st nid with
  | none => acc
  | some n =>
    if ¬ (n.typ = some "ReactorConcept") then acc
    else if truthyYear n.deployment_year then acc
    else if ¬ (prereqsAllComplete deps st nid = true) then acc
    else
      let r := findCriticalPathTop ⟨deps, st⟩ cache nid
      let p := (r.1.map Prod.snd).getD 0
      if 7/10 < p then
        (dictInsert st nid
          { n with
            deployment_year := some year,
            deployed_capacity_mw := AVG_PLANT_CAPACITY_MW },
         r.2, newly ++ [nid])
      else (st, r.2, newly)

/-- `_check_for_deployments(sim_nodes, current_year)` (lines 357-383). -/
def checkForDeployments (deps : List (String × List String))
    (st : List (String × SimNode)) (cache : CPCache) (year : Int) :
    List (String × SimNode) × CPCache × List String :=
  (dictKeys st).foldl (checkNodeDeploy deps year) (st, cache, [])

/-- `_calculate_yearly_energy_production` for one node (lines 389-405):
50% ramp-up output in the first deployed year, full output afterwards;
nothing for undeployed (or falsy-year) concepts. -/
def yearlyEnergyOfNode (n : SimNode) (year : Int) : ℚ :=
  match n.deployment_year with
  | none => 0
  | some dy =>
    if truthyYear (some dy) = true ∧ dy ≤ year then
      if year - dy + 1 = 1 then
        n.deployed_capacity_mw * CAPACITY_FACTOR * 24 * 365 * (1/2)
      else
        n.deployed_capacity_mw * CAPACITY_FACTOR * 24 * 365
    else 0

/-- `_calculate_yearly_energy_production` (lines 385-407), in TWh. -/
def calcYearlyEnergyTwh (st : List (String × SimNode)) (year : Int) : ℚ :=
  (st.foldl
    (fun a p => if p.2.typ = some "ReactorConcept" then a + yearlyEnergyOfNode p.2 year else a)
    0) / MWH_TO_TWH

/-- The forward-simulation state: the mutable snapshot plus the scheduler
instance's memoization cache (`self.memoization_cache`), which
`_run_forward_simulation` and `_check_for_deployments` never clear. -/
structure FwdState where
  st : List (String × SimNode)
  cache : CPCache
  deriving Repr, DecidableEq

/-- One iteration of the year loop of `_run_forward_simulation`
(lines 295-317): apply the one-time acceleration when `yearOffset = 0`,
advance all technologies, check for deployments, and compute the year's energy
production.  Returns the new state, the newly deployed ids and the year's TWh. -/
def fwdYearStep (deps : List (String × List String)) (accel : Option String)
    (startYear : Int) (yearOffset : ℕ) (fs : FwdState) :
    FwdState × List String × ℚ :=
  let st0 :=
    match accel with
    | some t =>
      if yearOffset = 0 ∧ t ≠ "" ∧ dictMem fs.st t = true then
        dictUpdate fs.st t applyAcceleration
      else fs.st
    | none => fs.st
  let st1 := advanceTechnologiesOneYear deps st0
  let r := checkForDeployments deps st1 fs.cache (startYear + yearOffset)
  let energy := calcYearlyEnergyTwh r.1 (startYear + yearOffset)
  (⟨r.1, r.2.1⟩, r.2.2, energy)

/-- The year loop, producing the final state and the
`(year, total_energy_twh)` rows of `yearly_results`. -/
def runForwardLoop (deps : List (String × List String)) (accel : Option String)
    (startYear : Int) : ℕ → ℕ → FwdState → FwdState × List (Int × ℚ)
  | _, 0, fs => (fs, [])
  | offset, k + 1, fs =>
    let r := fwdYearStep deps accel startYear offset fs
    let rest := runForwardLoop deps accel startYear (offset + 1) k r.1
    (rest.1, (startYear + offset, r.2.2) :: rest.2)

/-- `_run_forward_simulation(start_year, years, accelerated_tech)`
(lines 270-319), threading the instance cache `cache0` it begins with. -/
def runForwardSimulation (nodes : List (String × InputNode))
    (deps : List (String × List String)) (startYear : Int) (years : ℕ)
    (accel : Option String) (cache0 : CPCache) : FwdState × List (Int × ℚ) :=
  runForwardLoop deps accel startYear 0 years ⟨seedFwd nodes, cache0⟩

/-- The forward-simulation state after `k` of the simulated years (the
prefix of the year loop), for stating invariants along the run. -/
def fwdStateAt (nodes : List (String × InputNode))
    (deps : List (String × List String)) (startYear : Int)
    (accel : Option String) (cache0 : CPCache) : ℕ → FwdState
  | 0 => ⟨seedFwd nodes, cache0⟩
  | k + 1 =>
    (fwdYearStep deps accel startYear k
      (fwdStateAt nodes deps startYear accel cache0 k)).1

/-- `_calculate_discounted_cumulative_energy` (lines 409-419). -/
def discountedCumulativeEnergy (results : List (Int × ℚ)) (startYear : Int)
    (rate : ℚ) : ℚ :=
  results.foldl (fun a p => a + p.2 * (1 / (1 + rate) ^ (p.1 - startYear))) 0

/-! ## Energy accounting of the Year-by-Year Scheduler (real-valued)

`_calculate_discounted_mwh` raises `1.05` to possibly non-integral exponents
(deployment years are fractional), so this layer is `ℝ`-valued with Python
`**` embedded as real `rpow`. -/

/-- `_calculate_discounted_mwh(deployment_year)` (lines 120-127): `0` for an
infinite deployment year, else the sum of the discounted annual output over
the 60 operating years, restricted to the years strictly after
`CURRENT_YEAR`. -/
noncomputable def calculateDiscountedMwh (dy : WithTop ℚ) : ℝ :=
  match dy with
  | none => 0
  | some y =>
    ∑ i in (Finset.range YEARS_OF_OPERATION).filter (fun (i : ℕ) => CURRENT_YEAR < y + (i : ℚ)),
      ((AVG_PLANT_CAPACITY_MW * CAPACITY_FACTOR * 24 * 365 : ℚ) : ℝ) /
        ((1 + DISCOUNT_RATE : ℚ) : ℝ) ^ (((y + (i : ℚ) - CURRENT_YEAR : ℚ)) : ℝ)

/-- The loop of `_calculate_pathway_mwh` (lines 133-137): evaluate each
concept against the threaded cache and accumulate
`discounted-potential × probability`. -/
noncomputable def pathwayFold (env : SchedEnv) :
    ℝ × CPCache → List String → ℝ × CPCache
  | acc, [] => acc
  | acc, cid :: rest =>
    let r := findCriticalPathTop env acc.2 cid
    let v := r.1.getD (((0 : ℚ) : WithTop ℚ), (1 : ℚ))
    pathwayFold env
      (acc.1 + calculateDiscountedMwh (((CURRENT_YEAR : ℚ) : WithTop ℚ) + v.1) * (v.2 : ℝ), r.2)
      rest

/-- `_calculate_pathway_mwh(nodes_to_sim, concept_ids)` (lines 129-138): the
memoization cache is cleared first (the fold starts from `[]`), then the
concepts are evaluated in order with the cache threaded through the pass. -/
noncomputable def calculatePathwayMwh (env : SchedEnv) (conceptIds : List String) : ℝ :=
  (pathwayFold env (0, []) conceptIds).1

/-- The counterfactual acceleration of the impact loop (lines 195-200),
applied to the deep-copied `temp_nodes`: decrement the clock and add the
risk-reduction increment — with no floor at `0` and no cap at `1.0`. -/
def accelerateForImpact (st : List (String × SimNode)) (nid : String) :
    List (String × SimNode) :=
  dictUpdate st nid (fun n =>
    let n1 := { n with time_remaining := n.time_remaining - 1 }
    { n1 with prob_of_success := n1.prob_of_success + riskRate n1 })

/-- `(accelerated_mwh - baseline_mwh) / MWH_TO_TWH` for one active node of the
impact loop (lines 188-205): both pathway evaluations are restricted to the
node's downstream `ReactorConcept`s. -/
noncomputable def impactDeltaRS (nodesDict : List (String × InputNode))
    (deps : List (String × List String))
    (succ : List (String × List (Option String)))
    (st : List (String × SimNode)) (nid : String) : ℝ :=
  let affected := getDownstreamConcepts nodesDict succ nid
  let baseline := calculatePathwayMwh ⟨deps, st⟩ affected
  let accelerated := calculatePathwayMwh ⟨deps, accelerateForImpact st nid⟩ affected
  (accelerated - baseline) / ((MWH_TO_TWH : ℚ) : ℝ)

/-- The impact-table entry the second per-year loop of `run_simulation`
records for a node in a given year (lines 184-207): `none` for untracked,
completed or non-`Active` nodes and for nodes with no downstream concepts;
otherwise the delta, recorded only when it exceeds the `0.001` TWh noise
floor.  (`impact_table` is keyed by node label; this is the entry written for
the node's row.) -/
noncomputable def impactEntryRS (nodesDict : List (String × InputNode))
    (deps : List (String × List String))
    (succ : List (String × List (Option String)))
    (st : List (String × SimNode)) (statuses : List (String × String))
    (nid : String) : Option ℝ :=
  match dictLookup st nid with
  | none => none
  | some n =>
    if ¬ (isTracked n = true) then none
    else if n.is_complete then none
    else if ¬ (dictLookup statuses n.label = some "Active") then none
    else if getDownstreamConcepts nodesDict succ nid = [] then none
    else
      let d := impactDeltaRS nodesDict deps succ st nid
      if _h : (1/1000 : ℝ) < d then some d else none

/-! ## Spec-side definitions for refinement comparison -/

/-- The discounted-lifetime-energy formula exactly as the spec words it
(§4.4): "`sum_{i=0}^{59} (capacityMW × capacityFactor × 24 × 365) /
(1+discountRate)^(Y+i-currentYear)`, summed only over terms where
`Y+i > currentYear`, using fixed constants: capacity 1000 MW, capacity factor
0.90, discount rate 0.05, 60-year operating lifetime", and `0` for an infinite
deployment year.  Written from the spec's words, to be compared with the
code-derived `calculateDiscountedMwh`. -/
noncomputable def specDiscountedLifetimeEnergy (Y : WithTop ℚ) : ℝ :=
  match Y with
  | none => 0
  | some y =>
    ∑ i in (Finset.range 60).filter (fun (i : ℕ) => CURRENT_YEAR < y + (i : ℚ)),
      ((1000 * (90/100) * 24 * 365 : ℚ) : ℝ) /
        ((1 + 5/100 : ℚ) : ℝ) ^ (((y + (i : ℚ) - CURRENT_YEAR : ℚ)) : ℝ)

/-- The sequence of critical-path evaluator results `_calculate_pathway_mwh`
obtains for a concept list, with the cache threaded exactly as in the code;
defined independently of the energy accumulation so that the pathway energy
can be equated with a per-concept sum. -/
def pathwayEvalList (env : SchedEnv) : CPCache → List String → List CPVal
  | _, [] => []
  | cache, cid :: rest =>
    let r := findCriticalPathTop env cache cid
    (r.1.getD (((0 : ℚ) : WithTop ℚ), (1 : ℚ))) :: pathwayEvalList env r.2 rest

/-! ## Concrete instances used by witnesses and counterexamples -/

/-- A generic milestone-like snapshot node for evaluator examples. -/
def exNode (lab : String) (tr p : ℚ) (compl : Bool) : SimNode :=
  { label := lab, typ := some "Milestone", trl_current := some "5",
    trlProjected := false, initial_time := 10, time_remaining := tr,
    prob_of_success := p, is_complete := compl, deployment_year := none,
    deployed_capacity_mw := 0 }

/-- A two-node dependency cycle `X ↔ Y` for the cycle-guard example. -/
def envCycle : SchedEnv :=
  { deps := [("X", ["Y"]), ("Y", ["X"])],
    snap := [("X", exNode "X" 10 (7/10) false), ("Y", exNode "Y" 10 (7/10) false)] }

/-- A `ReactorConcept` snapshot node for deployment examples. -/
def exConcept (lab : String) (tr p : ℚ) (dy : Option Int) : SimNode :=
  { label := lab, typ := some "ReactorConcept", trl_current := some "7",
    trlProjected := false, initial_time := 5, time_remaining := tr,
    prob_of_success := p, is_complete := false, deployment_year := dy,
    deployed_capacity_mw := 0 }

/-- Snapshot `A` of the cache-reuse failing input: concept `X` (behind the
already-complete prerequisite `P`) with `time_remaining 5`,
`prob_of_success 0.9`. -/
def snapA : List (String × SimNode) :=
  [("P", exNode "P" 0 1 true), ("X", exConcept "X" 5 (9/10) none)]

/-- Snapshot `B`: the same node ids, but `X` has `time_remaining 3`,
`prob_of_success 0.6`. -/
def snapB : List (String × SimNode) :=
  [("P", exNode "P" 0 1 true), ("X", exConcept "X" 3 (3/5) none)]

/-- The shared prerequisite map of the failing input: `P` enables `X`. -/
def depsPX : List (String × List String) := [("P", []), ("X", ["P"])]

/-- One-node input graph (a TRL-8 milestone, raw estimate `2.5` years) whose
third simulated year drives `time_remaining` to `-0.5`. -/
def nodeA8 : InputNode :=
  { id := "A", label := "A", typ := some "Milestone", trl_current := some "8",
    trlProjected := false }

def nodesA8 : List (String × InputNode) := buildNodesDict [nodeA8]

def depsA8 : List (String × List String) := buildDependencyMap (dictKeys nodesA8) []

/-- The negative-impact example: milestone `M` (TRL 8 with the projected
annotation: estimate `7.5` years, initial probability `0.98`, risk rate
`1/375`) feeding `ReactorConcept` `C` (readiness `8.8`: `time_remaining 0.5`,
probability `0.6`, never advanced). -/
def nodeM : InputNode :=
  { id := "M", label := "M", typ := some "Milestone", trl_current := some "8",
    trlProjected := true }

def nodeC : InputNode :=
  { id := "C", label := "C", typ := some "ReactorConcept",
    trl_current := some "8.8", trlProjected := false }

def edgeMC : InputEdge := { source := "M", target := some "C", targets := none }

def nodesMC : List (String × InputNode) := buildNodesDict [nodeM, nodeC]

def depsMC : List (String × List String) :=
  buildDependencyMap (dictKeys nodesMC) [edgeMC]

def succMC : List (String × List (Option String)) :=
  buildSuccessorMap (dictKeys nodesMC) [edgeMC]

/-- The year-7 snapshot-and-status row of the advance phase on the `M → C`
graph. -/
def mcYear7 : List (String × SimNode) × List (String × String) :=
  runRSAdvance depsMC (seedRS nodesMC) 7

/-- A prerequisite-free `ReactorConcept` (initial probability `0.9 > 0.7`)
for the year-zero deployment-reassignment example. -/
def nodeK : InputNode :=
  { id := "K", label := "K", typ := some "ReactorConcept",
    trl_current := some "7", trlProjected := false }

def nodesK : List (String × InputNode) := buildNodesDict [nodeK]

def depsK : List (String × List String) := buildDependencyMap (dictKeys nodesK) []

/-- Three-node gating example: prerequisites `P1` (complete at seeding,
TRL 9) and `P2` (incomplete, TRL 3) both feed milestone `B`. -/
def nodeP1 : InputNode :=
  { id := "P1", label := "P1", typ := some "Milestone", trl_current := some "9",
    trlProjected := false }

def nodeP2 : InputNode :=
  { id := "P2", label := "P2", typ := some "Milestone", trl_current := some "3",
    trlProjected := false }

def nodeB : InputNode :=
  { id := "B", label := "B", typ := some "Milestone", trl_current := some "4",
    trlProjected := false }

def nodesP12B : List (String × InputNode) := buildNodesDict [nodeP1, nodeP2, nodeB]

def depsP12B : List (String × List String) :=
  buildDependencyMap (dictKeys nodesP12B)
    [{ source := "P1", target := some "B", targets := none },
     { source := "P2", target := some "B", targets := none }]

/-- The empty-string-id input of the Graph Store counterexample: one node with
id `""` and one edge `"" → ""`. -/
def edgeEmpty : InputEdge := { source := "", target := some "", targets := none }

/-- A snapshot whose only node `X` has the missing id `Z` as prerequisite. -/
def envMissing : SchedEnv :=
  { deps := [("X", ["Z"])], snap := [("X", exNode "X" 10 (7/10) false)] }

/-- A node with an unparseable readiness string, for the fallback branch. -/
def nodeU : InputNode :=
  { id := "U", label := "U", typ := some "Milestone", trl_current := some "TBD",
    trlProjected := false }

/-- A prerequisite-free concept snapshot at exactly the `0.70` threshold. -/
def snapT1 : List (String × SimNode) := [("K", exConcept "K" 5 (7/10) none)]

/-- The same concept at probability `0.700001`. -/
def snapT2 : List (String × SimNode) := [("K", exConcept "K" 5 (700001/1000000) none)]

/-- The same concept already deployed in 2030. -/
def snapT3 : List (String × SimNode) := [("K", exConcept "K" 5 (9/10) (some 2030))]

def depsT : List (String × List String) := [("K", [])]

/-! ## State relations for the monotonicity claims -/

/-- The advance steps never touch a node's identity or readiness metadata. -/
def sameMeta (a b : SimNode) : Prop :=
  b.label = a.label ∧ b.typ = a.typ ∧ b.trl_current = a.trl_current ∧
  b.trlProjected = a.trlProjected ∧ b.initial_time = a.initial_time

/-- One (or several) simulated years relate a node's old and new state:
the clock never increases, the probability never decreases, the clock drops
below `-1` never, and the metadata is untouched. -/
def relStar (a b : SimNode) : Prop :=
  b.time_remaining ≤ a.time_remaining ∧
  a.prob_of_success ≤ b.prob_of_success ∧
  (-1 < a.time_remaining → -1 < b.time_remaining) ∧
  sameMeta a b

/-- The per-node invariant of `run_simulation`'s advance phase: positive
risk-rate divisor, probability within `[0, 1]`, and — while incomplete — a
positive clock together with the linear budget
`prob + time_remaining * riskRate ≤ 1` (equality at seeding), which keeps the
probability below `1` until completion forces it to `1.0`. -/
def rsInv (n : SimNode) : Prop :=
  0 < n.initial_time ∧
  0 ≤ n.prob_of_success ∧ n.prob_of_success ≤ 1 ∧
  (n.is_complete = false → 0 < n.time_remaining ∧
    n.prob_of_success + n.time_remaining * riskRate n ≤ 1)

/-- The per-node invariant of the Strategic Forward Simulator (its advance
caps the probability at `1.0`, so no budget is needed). -/
def fwdInv (n : SimNode) : Prop :=
  0 < n.initial_time ∧ 0 ≤ n.prob_of_success ∧ n.prob_of_success ≤ 1

/-- Every node value reachable by lookup satisfies `P`. -/
def allInvP (P : SimNode → Prop) (st : List (String × SimNode)) : Prop :=
  ∀ nid n, dictLookup st nid = some n → P n

/-- Pointwise lifting of `relStar` to whole snapshots: present nodes evolve
along `relStar`, absent ids stay absent. -/
def stRel (a b : List (String × SimNode)) : Prop :=
  ∀ nid : String,
    (∀ n, dictLookup a nid = some n → ∃ m, dictLookup b nid = some m ∧ relStar n m) ∧
    (dictLookup a nid = none → dictLookup b nid = none)

/-- The acceleration stage at the top of the year loop (lines 299-303):
in the first simulated year a nonempty, present `accelerated_tech` id gets one
extra `_apply_acceleration` year. -/
def accelStage (accel : Option String) (off : ℕ)
    (st : List (String × SimNode)) : List (String × SimNode) :=
  match accel with
  | some t =>
    if off = 0 ∧ t ≠ "" ∧ dictMem st t = true then dictUpdate st t applyAcceleration
    else st
  | none => st

/-- The snapshot entry for node `A` of `nodesA8` as both schedulers seed it
(estimate `2.5` years, initial probability `0.98`). -/
def a8Seed : SimNode :=
  { label := "A", typ := some "Milestone", trl_current := some "8",
    trlProjected := false, initial_time := 5/2, time_remaining := 5/2,
    prob_of_success := 49/50, is_complete := false, deployment_year := none,
    deployed_capacity_mw := 0 }

/-- `A` after one simulated year (either scheduler): clock `1.5`, probability
`0.98 + 0.008 = 0.988`. -/
def a8Year1 : SimNode :=
  { label := "A", typ := some "Milestone", trl_current := some "8",
    trlProjected := false, initial_time := 5/2, time_remaining := 3/2,
    prob_of_success := 247/250, is_complete := false, deployment_year := none,
    deployed_capacity_mw := 0 }

/-- `A` after two simulated years: clock `0.5`, probability `0.996`. -/
def a8Year2 : SimNode :=
  { label := "A", typ := some "Milestone", trl_current := some "8",
    trlProjected := false, initial_time := 5/2, time_remaining := 1/2,
    prob_of_success := 249/250, is_complete := false, deployment_year := none,
    deployed_capacity_mw := 0 }

/-- `A` after three simulated years: the completing decrement leaves the clock
at `-0.5`, strictly below `0`. -/
def a8Year3 : SimNode :=
  { label := "A", typ := some "Milestone", trl_current := some "8",
    trlProjected := false, initial_time := 5/2, time_remaining := -1/2,
    prob_of_success := 1, is_complete := true, deployment_year := none,
    deployed_capacity_mw := 0 }

/-- The snapshot entry for milestone `M` of `nodesMC` with clock `t` and
probability `p` (its seeding: estimate `7.5` from the projected annotation,
initial probability `0.98`, risk rate `1/375`). -/
def mcM (t p : ℚ) : SimNode :=
  { label := "M", typ := some "Milestone", trl_current := some "8",
    trlProjected := true, initial_time := 15/2, time_remaining := t,
    prob_of_success := p, is_complete := false, deployment_year := none,
    deployed_capacity_mw := 0 }

/-- The snapshot entry for concept `C` of `nodesMC`: readiness `8.8` gives the
estimate `0.5` and the default probability `0.6`; untracked, it never moves
during the advance phase. -/
def mcC : SimNode :=
  { label := "C", typ := some "ReactorConcept", trl_current := some "8.8",
    trlProjected := false, initial_time := 1/2, time_remaining := 1/2,
    prob_of_success := 3/5, is_complete := false, deployment_year := none,
    deployed_capacity_mw := 0 }

/-! # Theorems

First shared infrastructure lemmas about the dictionary operations, then the
claims C1-C10 in order. -/

@[simp] theorem dictLookup_nil {κ α : Type} [BEq κ] (k : κ) :
    dictLookup ([] : List (κ × α)) k = none := rfl

/-- `dictUpdate` preserves the key sequence. -/
theorem dictKeys_dictUpdate {κ α : Type} [BEq κ] (d : List (κ × α)) (k : κ) (f : α → α) :
    dictKeys (dictUpdate d k f) = dictKeys d := by
  induction d with
  | nil => rfl
  | cons p rest ih =>
    simp only [dictUpdate]
    split
    · simp [dictKeys]
    · simp [dictKeys] at ih ⊢
      exact ih

/-- Lookup after an in-place update. -/
theorem dictLookup_dictUpdate {κ α : Type} [BEq κ] [LawfulBEq κ] [DecidableEq κ]
    (d : List (κ × α)) (k : κ) (f : α → α) (n : κ) :
    dictLookup (dictUpdate d k f) n =
      if n = k then (dictLookup d n).map f else dictLookup d n := by
  induction d with
  | nil => simp [dictUpdate, dictLookup]
  | cons p rest ih =>
    simp only [dictUpdate, dictLookup, List.find?]
    by_cases hk : p.1 = k
    · by_cases hn : p.1 = n
      · subst hk; subst hn
        simp [List.find?, dictLookup]
      · subst hk
        have h1 : (p.1 == n) = false := by simp [hn]
        have h2 : ¬ (n = p.1) := fun h => hn h.symm
        simp [dictLookup, List.find?, h1, h2]
    · have h1 : (p.1 == k) = false := by simp [hk]
      simp only [h1, Bool.false_eq_true, if_neg, dictLookup, List.find?]
      by_cases hn : p.1 = n
      · subst hn
        simp [hk, List.find?, dictLookup]
      · have h2 : (p.1 == n) = false := by simp [hn]
        simp only [h2, Bool.false_eq_true, if_neg]
        simpa [dictLookup, List.find?, h2] using ih

/-- Membership agrees with lookup success. -/
theorem dictMem_isSome {κ α : Type} [BEq κ] [LawfulBEq κ] [DecidableEq κ]
    (d : List (κ × α)) (k : κ) :
    dictMem d k = (dictLookup d k).isSome := by
  induction d with
  | nil => rfl
  | cons p rest ih =>
    simp only [dictMem, dictLookup, List.any, List.find?]
    by_cases h : p.1 = k
    · simp [h]
    · have h1 : (p.1 == k) = false := by simp [h]
      simp only [h1, Bool.false_or]
      simpa [dictMem, dictLookup] using ih

/-- Lookup in the freshly initialised `{id: [] for id in nodes}` map. -/
theorem dictLookup_constMap {α : Type} (ids : List String) (v0 : α) (n : String) :
    dictLookup (ids.map (fun i => (i, v0))) n = if n ∈ ids then some v0 else none := by
  induction ids with
  | nil => simp
  | cons i rest ih =>
    simp only [List.map_cons, dictLookup, List.find?]
    by_cases h : i = n
    · simp [h]
    · have h1 : (i == n) = false := by simp [h]
      have h2 : ¬ (n = i) := fun hh => h hh.symm
      simp only [h1, List.mem_cons, h2, false_or]
      simpa [dictLookup] using ih

/-- Looking up the key just written by `dictInsert`. -/
theorem dictLookup_dictInsert_self {κ α : Type} [BEq κ] [LawfulBEq κ]
    (d : List (κ × α)) (k : κ) (v : α) :
    dictLookup (dictInsert d k v) k = some v := by
  induction d with
  | nil => simp [dictInsert, dictLookup, List.find?]
  | cons p rest ih =>
    simp only [dictInsert]
    split
    · simp [dictLookup, List.find?]
    · rename_i hne
      simp only [dictLookup, List.find?, hne]
      simpa [dictLookup] using ih

/-- Lookup after a Python dict assignment. -/
theorem dictLookup_dictInsert {κ α : Type} [BEq κ] [LawfulBEq κ] [DecidableEq κ]
    (d : List (κ × α)) (k : κ) (v : α) (n : κ) :
    dictLookup (dictInsert d k v) n = if n = k then some v else dictLookup d n := by
  induction d with
  | nil =>
    by_cases h : n = k
    · simp [dictInsert, dictLookup, List.find?, h]
    · have h1 : (k == n) = false := by simp [Ne.symm h]
      simp [dictInsert, dictLookup, List.find?, h, h1]
  | cons p rest ih =>
    simp only [dictInsert]
    by_cases hk : p.1 = k
    · by_cases hn : n = k
      · subst hn
        simp [hk, dictLookup, List.find?]
      · have h2 : (k == n) = false := by simp [Ne.symm hn]
        have h3 : (p.1 == n) = false := by rw [hk]; exact h2
        simp [hk, dictLookup, List.find?, h2, h3, hn]
    · have h1 : (p.1 == k) = false := by simp [hk]
      simp only [h1, Bool.false_eq_true, if_neg, dictLookup, List.find?]
      by_cases hn : p.1 = n
      · subst hn
        simp [dictLookup, List.find?, hk]
      · have h2 : (p.1 == n) = false := by simp [hn]
        simp only [h2, Bool.false_eq_true, if_neg]
        simpa [dictLookup, List.find?, h2] using ih

/-! ## C1 — independence of counterfactual evaluation passes -/

/-- **C1** (code bug, evaluated at the failing input): the deployment checks
of the Strategic Forward Simulator never clear the instance's memoization
cache.  Snapshots `A` (`X`: time 5, probability 0.9) and `B` (`X`: time 3,
probability 0.6) assign the same node ids; running `_check_for_deployments`
over `A` memoizes `X ↦ (5, 0.9)`, and the evaluator invoked over `B` with
that cache returns `A`'s memoized `(5, 0.9)` — not the fresh `(3, 0.6)` a
cleared cache yields — so `X` (probability 0.6 ≤ 0.7 in `B`) is nevertheless
deployed in `B`.  The spec requires the cache to be cleared (or scoped
per-snapshot) before every independent evaluation pass; only
`_calculate_pathway_mwh` does so. -/
theorem C1_stale_cache_reuse_failing_input :
    (checkForDeployments depsPX snapA [] 2030).2.1 =
      [("X", (((5 : ℚ) : WithTop ℚ), (9/10 : ℚ)))] ∧
    findCriticalPathTop ⟨depsPX, snapB⟩ [("X", (((5 : ℚ) : WithTop ℚ), (9/10 : ℚ)))] "X" =
      (some (((5 : ℚ) : WithTop ℚ), (9/10 : ℚ)),
       [("X", (((5 : ℚ) : WithTop ℚ), (9/10 : ℚ)))]) ∧
    findCriticalPathTop ⟨depsPX, snapB⟩ [] "X" =
      (some (((3 : ℚ) : WithTop ℚ), (3/5 : ℚ)),
       [("X", (((3 : ℚ) : WithTop ℚ), (3/5 : ℚ)))]) ∧
    (checkForDeployments depsPX snapB [("X", (((5 : ℚ) : WithTop ℚ), (9/10 : ℚ)))] 2031).2.2 = ["X"] ∧
    (checkForDeployments depsPX snapB [] 2031).2.2 = [] := by
  refine ⟨?_, ?_, ?_, ?_, ?_⟩ <;>
    simp [checkForDeployments, checkNodeDeploy, findCriticalPathTop, cpFuel,
      findCriticalPath, evalListCP, depsPX, snapA, snapB, exNode, exConcept,
      dictLookup, dictKeys, dictMem, dictInsert, dictUpdate, List.find?,
      prereqsAllComplete, truthyYear, pyMaxTimes, pyProd, isTracked] <;>
    norm_num

/-! ## C2 — cycle termination -/

/-- **C2**: the Critical-Path Evaluator is cycle-guarded: (i) a node revisited
while still on the active recursion path immediately contributes
`(infinity, 0.0)` for that branch; (ii) for every snapshot containing a
two-node dependency cycle `X ↔ Y` (with any `time_remaining` /
`prob_of_success` values), the top-level evaluation of `X` terminates under
every sufficient fuel budget (`≥ 3`, independent of the budget — there is no
unbounded recursion) and returns the sentinel `(infinity, 0.0)` rather than
raising, memoizing the sentinel for both cycle nodes. -/
theorem C2_cycle_guard_returns_unreachable :
    (∀ (env : SchedEnv) (fuel : ℕ) (stack : List String) (cache : CPCache) (nid : String),
      nid ∈ stack →
      findCriticalPath env (fuel + 1) stack cache nid = (some ((⊤ : WithTop ℚ), (0 : ℚ)), cache))
    ∧
    ∀ (env : SchedEnv) (f : ℕ) (X Y : String) (nX nY : SimNode),
      X ≠ Y →
      dictLookup env.deps X = some [Y] →
      dictLookup env.deps Y = some [X] →
      dictLookup env.snap X = some nX →
      dictLookup env.snap Y = some nY →
      findCriticalPath env (f + 3) [] [] X =
        (some ((⊤ : WithTop ℚ), (0 : ℚ)),
         [(Y, ((⊤ : WithTop ℚ), (0 : ℚ))), (X, (⊤, 0))]) := by
  constructor
  · intro env fuel stack cache nid h
    simp [findCriticalPath, h]
  · intro env f X Y nX nY hne hdX hdY hX hY
    simp [findCriticalPath, evalListCP, hdX, hdY, hX, hY, hne, Ne.symm hne,
      pyMaxTimes, pyProd, dictInsert]

/-- Witness for C2 on the concrete two-node cycle `envCycle`. -/
theorem C2_cycle_guard_witness :
    findCriticalPath envCycle 5 ["X"] [] "X" = (some ((⊤ : WithTop ℚ), (0 : ℚ)), []) ∧
    findCriticalPath envCycle 5 [] [] "X" =
      (some ((⊤ : WithTop ℚ), (0 : ℚ)),
       [("Y", ((⊤ : WithTop ℚ), (0 : ℚ))), ("X", (⊤, 0))]) :=
  ⟨C2_cycle_guard_returns_unreachable.1 envCycle 4 ["X"] [] "X" (by simp),
   C2_cycle_guard_returns_unreachable.2 envCycle 2 "X" "Y"
     (exNode "X" 10 (7/10) false) (exNode "Y" 10 (7/10) false)
     (by simp) (by simp [envCycle, dictLookup])
     (by simp [envCycle, dictLookup])
     (by simp [envCycle, dictLookup])
     (by simp [envCycle, dictLookup])⟩

/-! ## C5 — deployment threshold and permanence -/

/-- Advancing a node never touches its deployment year. -/
theorem fwdAdvanceFields_deployment (n : SimNode) :
    (fwdAdvanceFields n).deployment_year = n.deployment_year := by
  simp only [fwdAdvanceFields]
  split <;> split <;> rfl

/-- Acceleration never touches the deployment year. -/
theorem applyAcceleration_deployment (n : SimNode) :
    (applyAcceleration n).deployment_year = n.deployment_year := by
  simp only [applyAcceleration]
  split
  · split <;> rfl
  · rfl

/-- One advance step preserves every deployment year in the snapshot. -/
theorem advanceNodeFwd_deployment (deps : List (String × List String))
    (st : List (String × SimNode)) (nid id : String) :
    ((dictLookup (advanceNodeFwd deps st nid) id).map (·.deployment_year)) =
      ((dictLookup st id).map (·.deployment_year)) := by
  cases hl : dictLookup st nid with
  | none => simp [advanceNodeFwd, hl]
  | some n =>
    simp only [advanceNodeFwd, hl]
    split
    · rfl
    · split
      · rfl
      · split
        · rw [dictLookup_dictInsert]
          by_cases h : id = nid
          · subst h
            rw [if_pos rfl, hl]
            simp [fwdAdvanceFields_deployment]
          · rw [if_neg h]
        · rfl

/-- `_advance_technologies_one_year` preserves every deployment year. -/
theorem advanceTech_deployment (deps : List (String × List String))
    (st : List (String × SimNode)) (id : String) :
    ((dictLookup (advanceTechnologiesOneYear deps st) id).map (·.deployment_year)) =
      ((dictLookup st id).map (·.deployment_year)) := by
  simp only [advanceTechnologiesOneYear]
  generalize dictKeys st = keys
  induction keys generalizing st with
  | nil => rfl
  | cons k ks ih =>
    simp only [List.foldl_cons]
    rw [ih, advanceNodeFwd_deployment]

/-- A deployment check never reassigns a truthy (nonzero) deployment year. -/
theorem checkNodeDeploy_preserves (deps : List (String × List String)) (year : Int)
    (acc : List (String × SimNode) × CPCache × List String) (nid id : String) (y : Int) :
    y ≠ 0 →
    ((dictLookup acc.1 id).map (·.deployment_year)) = some (some y) →
    ((dictLookup (checkNodeDeploy deps year acc nid).1 id).map (·.deployment_year)) =
      some (some y) := by
  intro hy hl
  by_cases h : id = nid
  · subst h
    cases hn : dictLookup acc.1 id with
    | none =>
      rw [hn] at hl
      simp at hl
    | some n =>
      rw [hn] at hl
      replace hl : n.deployment_year = some y := by simpa using hl
      have htr : truthyYear n.deployment_year = true := by
        rw [hl]; simp [truthyYear, hy]
      simp only [checkNodeDeploy, hn, htr]
      split
      · simp [hn, hl]
      · simp [hn, hl]
  · cases hn : dictLookup acc.1 nid with
    | none =>
      simp only [checkNodeDeploy, hn]
      exact hl
    | some n =>
      simp only [checkNodeDeploy, hn]
      split
      · exact hl
      · split
        · exact hl
        · split
          · exact hl
          · split
            · simp only
              rw [dictLookup_dictInsert, if_neg h]
              exact hl
            · exact hl

/-- `_check_for_deployments` never reassigns a truthy deployment year. -/
theorem checkForDeployments_preserves (deps : List (String × List String))
    (st : List (String × SimNode)) (cache : CPCache) (year : Int) (id : String) (y : Int) :
    y ≠ 0 →
    ((dictLookup st id).map (·.deployment_year)) = some (some y) →
    ((dictLookup (checkForDeployments deps st cache year).1 id).map (·.deployment_year)) =
      some (some y) := by
  intro hy
  simp only [checkForDeployments]
  generalize dictKeys st = keys
  generalize hacc : (st, cache, ([] : List String)) = acc
  intro hl
  replace hl : ((dictLookup acc.1 id).map (·.deployment_year)) = some (some y) := by
    rw [← hacc]; exact hl
  clear hacc
  induction keys generalizing acc with
  | nil => exact hl
  | cons k ks ih =>
    simp only [List.foldl_cons]
    exact ih _ (checkNodeDeploy_preserves deps year acc k id y hy hl)

/-- One forward-simulation year preserves truthy deployment years. -/
theorem fwdYearStep_preserves (deps : List (String × List String))
    (accel : Option String) (startYear : Int) (offset : ℕ) (fs : FwdState)
    (id : String) (y : Int) :
    y ≠ 0 →
    ((dictLookup fs.st id).map (·.deployment_year)) = some (some y) →
    ((dictLookup (fwdYearStep deps accel startYear offset fs).1.st id).map
      (·.deployment_year)) = some (some y) := by
  intro hy hl
  have hst0 : ∀ st0 : List (String × SimNode),
      ((dictLookup st0 id).map (·.deployment_year)) = some (some y) →
      ((dictLookup (checkForDeployments deps (advanceTechnologiesOneYear deps st0)
          fs.cache (startYear + offset)).1 id).map (·.deployment_year)) = some (some y) := by
    intro st0 h0
    apply checkForDeployments_preserves _ _ _ _ _ _ hy
    rw [advanceTech_deployment]
    exact h0
  cases accel with
  | none => simp only [fwdYearStep]; exact hst0 fs.st hl
  | some t =>
    simp only [fwdYearStep]
    split
    · apply hst0
      rw [dictLookup_dictUpdate]
      by_cases h : id = t
      · subst h
        rw [if_pos rfl]
        cases hk : dictLookup fs.st id with
        | none => rw [hk] at hl; simp at hl
        | some n =>
          rw [hk] at hl
          replace hl : n.deployment_year = some y := by simpa using hl
          simp [applyAcceleration_deployment, hl]
      · rw [if_neg h]
        exact hl
    · exact hst0 fs.st hl

/-- Along a forward run, a nonzero deployment year, once set, never changes. -/
theorem fwdStateAt_permanence (nodes : List (String × InputNode))
    (deps : List (String × List String)) (startYear : Int) (accel : Option String)
    (cache0 : CPCache) (k j : ℕ) (id : String) (y : Int) :
    y ≠ 0 → k ≤ j →
    ((dictLookup (fwdStateAt nodes deps startYear accel cache0 k).st id).map
      (·.deployment_year)) = some (some y) →
    ((dictLookup (fwdStateAt nodes deps startYear accel cache0 j).st id).map
      (·.deployment_year)) = some (some y) := by
  intro hy hkj hl
  induction hkj with
  | refl => exact hl
  | @step m h ih =>
    show ((dictLookup (fwdStateAt nodes deps startYear accel cache0 (m + 1)).st id).map
      (·.deployment_year)) = some (some y)
    simp only [fwdStateAt]
    exact fwdYearStep_preserves deps accel startYear m _ id y hy ih

/-- The deployment decision for an undeployed `ReactorConcept` with all direct
prerequisites complete: deploy exactly when the evaluator's probability
strictly exceeds `0.7`, assigning the current year and `1000` MW. -/
theorem checkNodeDeploy_threshold (deps : List (String × List String)) (year : Int)
    (st : List (String × SimNode)) (cache : CPCache) (newly : List String)
    (nid : String) (n : SimNode) :
    dictLookup st nid = some n →
    n.typ = some "ReactorConcept" →
    truthyYear n.deployment_year = false →
    prereqsAllComplete deps st nid = true →
    (7/10 < ((findCriticalPathTop ⟨deps, st⟩ cache nid).1.map Prod.snd).getD 0 →
      checkNodeDeploy deps year (st, cache, newly) nid =
        (dictInsert st nid
          { n with deployment_year := some year,
                   deployed_capacity_mw := AVG_PLANT_CAPACITY_MW },
         (findCriticalPathTop ⟨deps, st⟩ cache nid).2, newly ++ [nid]))
    ∧ (¬ (7/10 < ((findCriticalPathTop ⟨deps, st⟩ cache nid).1.map Prod.snd).getD 0) →
      checkNodeDeploy deps year (st, cache, newly) nid =
        (st, (findCriticalPathTop ⟨deps, st⟩ cache nid).2, newly)) := by
  intro hn htyp htr hpre
  constructor
  · intro hp
    simp [checkNodeDeploy, hn, htyp, htr, hpre, hp]
  · intro hp
    simp [checkNodeDeploy, hn, htyp, htr, hpre, hp]

/-- An already (truthy-)deployed node is skipped by the check. -/
theorem checkNodeDeploy_already (deps : List (String × List String)) (year : Int)
    (st : List (String × SimNode)) (cache : CPCache) (newly : List String)
    (nid : String) (n : SimNode) :
    dictLookup st nid = some n →
    truthyYear n.deployment_year = true →
    checkNodeDeploy deps year (st, cache, newly) nid = (st, cache, newly) := by
  intro hn htr
  simp [checkNodeDeploy, hn, htr]

/-- **C5** (amended — permanence requires a truthy, i.e. nonzero, deployment
year): in the Strategic Forward Simulator a `ReactorConcept` that is not yet
deployed and whose direct prerequisites are all complete deploys in the
current simulated year — with `deploymentYear = currentYear` and
`deployedCapacityMW = 1000` — exactly when the critical-path probability the
evaluator returns (against the run's threaded memoization cache) strictly
exceeds `0.70`; so exactly `0.70` does not deploy and `0.700001` does.  An
already deployed node (nonzero year) is left untouched by every later check,
and along any forward run a nonzero `deploymentYear`, once set, never
changes.  (A deployment recorded in year `0` is falsy in Python and can be
reassigned — see the counterexample.) -/
theorem C5_deployment_threshold_and_permanence :
    (∀ (deps : List (String × List String)) (year : Int)
       (st : List (String × SimNode)) (cache : CPCache) (newly : List String)
       (nid : String) (n : SimNode),
      dictLookup st nid = some n →
      n.typ = some "ReactorConcept" →
      truthyYear n.deployment_year = false →
      prereqsAllComplete deps st nid = true →
      (7/10 < ((findCriticalPathTop ⟨deps, st⟩ cache nid).1.map Prod.snd).getD 0 →
        checkNodeDeploy deps year (st, cache, newly) nid =
          (dictInsert st nid
            { n with deployment_year := some year,
                     deployed_capacity_mw := AVG_PLANT_CAPACITY_MW },
           (findCriticalPathTop ⟨deps, st⟩ cache nid).2, newly ++ [nid]))
      ∧ (¬ (7/10 < ((findCriticalPathTop ⟨deps, st⟩ cache nid).1.map Prod.snd).getD 0) →
        checkNodeDeploy deps year (st, cache, newly) nid =
          (st, (findCriticalPathTop ⟨deps, st⟩ cache nid).2, newly)))
    ∧ (∀ (deps : List (String × List String)) (year : Int)
         (st : List (String × SimNode)) (cache : CPCache) (newly : List String)
         (nid : String) (n : SimNode),
      dictLookup st nid = some n →
      truthyYear n.deployment_year = true →
      checkNodeDeploy deps year (st, cache, newly) nid = (st, cache, newly))
    ∧ ∀ (nodes : List (String × InputNode)) (deps : List (String × List String))
        (startYear : Int) (accel : Option String) (cache0 : CPCache)
        (k j : ℕ) (id : String) (y : Int),
      y ≠ 0 → k ≤ j →
      ((dictLookup (fwdStateAt nodes deps startYear accel cache0 k).st id).map
        (·.deployment_year)) = some (some y) →
      ((dictLookup (fwdStateAt nodes deps startYear accel cache0 j).st id).map
        (·.deployment_year)) = some (some y) :=
  ⟨checkNodeDeploy_threshold, checkNodeDeploy_already, fwdStateAt_permanence⟩

/-- **C5 counterexample** to unconditional permanence as the claim states it:
running the forward simulation from start year `0` on the prerequisite-free
concept `K` (probability `0.9 > 0.7`) deploys `K` in year `0`, but
`node.get('deployment_year')` is falsy for `0`, so the year-`1` check runs
again and reassigns `deploymentYear` from `0` to `1`. -/
theorem C5_year_zero_reassignment_counterexample :
    ((dictLookup (fwdStateAt nodesK depsK 0 none [] 1).st "K").map
      (·.deployment_year)) = some (some 0) ∧
    ((dictLookup (fwdStateAt nodesK depsK 0 none [] 2).st "K").map
      (·.deployment_year)) = some (some 1) := by
  have h1 : fwdStateAt nodesK depsK 0 none [] 1 =
      ⟨[("K", { label := "K", typ := some "ReactorConcept", trl_current := some "7",
                trlProjected := false, initial_time := 5, time_remaining := 5,
                prob_of_success := 9/10, is_complete := false,
                deployment_year := some 0, deployed_capacity_mw := 1000 })], []⟩ := by
    simp [fwdStateAt, fwdYearStep, advanceTechnologiesOneYear, advanceNodeFwd,
      checkForDeployments, checkNodeDeploy, findCriticalPathTop, cpFuel,
      findCriticalPath, evalListCP, nodesK, depsK, nodeK, buildNodesDict,
      buildDependencyMap, seedFwd, seedNodeFwd, getInitialTimeEstimate,
      trlNumeric, takeUntilChar, parseDecimal, trimChars, splitChar, decDigitsVal,
      decDigitsValAux, charDigitVal, isPySpace, initialProbOfTrl,
      TRL_PROBABILITY_MAP, dictLookup, dictKeys, dictMem, dictInsert, dictUpdate,
      List.find?, prereqsAllComplete, truthyYear, pyMaxTimes, pyProd, isTracked,
      exConcept, AVG_PLANT_CAPACITY_MW]
    norm_num
  constructor
  · rw [h1]
    simp [dictLookup, List.find?]
  · show ((dictLookup (fwdYearStep depsK none 0 1 (fwdStateAt nodesK depsK 0 none [] 1)).1.st
      "K").map (·.deployment_year)) = some (some 1)
    rw [h1]
    have h2 : (fwdYearStep depsK none 0 1
        (⟨[("K", { label := "K", typ := some "ReactorConcept", trl_current := some "7",
                   trlProjected := false, initial_time := 5, time_remaining := 5,
                   prob_of_success := 9/10, is_complete := false,
                   deployment_year := some 0, deployed_capacity_mw := 1000 })], []⟩ :
          FwdState)).1.st =
        [("K", { label := "K", typ := some "ReactorConcept", trl_current := some "7",
                 trlProjected := false, initial_time := 5, time_remaining := 5,
                 prob_of_success := 9/10, is_complete := false,
                 deployment_year := some 1, deployed_capacity_mw := 1000 })] := by
      simp [fwdYearStep, advanceTechnologiesOneYear, advanceNodeFwd,
        checkForDeployments, checkNodeDeploy, findCriticalPathTop, cpFuel,
        findCriticalPath, evalListCP, depsK, nodesK, nodeK, buildNodesDict,
        buildDependencyMap, dictLookup, dictKeys, dictMem,
        dictInsert, dictUpdate, List.find?, prereqsAllComplete, truthyYear,
        pyMaxTimes, pyProd, isTracked, AVG_PLANT_CAPACITY_MW]
      norm_num
    rw [h2]
    simp [dictLookup, List.find?]

/-- Witness for C5: at evaluated probability exactly `0.70` the concept does
not deploy, at `0.700001` it deploys with year and capacity set, an already
deployed concept is untouched, and a year-`1` deployment is still `1` a year
later. -/
theorem C5_deployment_threshold_witness :
    checkNodeDeploy depsT 2030 (snapT1, [], []) "K" = (snapT1, [], []) ∧
    checkNodeDeploy depsT 2030 (snapT2, [], []) "K" =
      (dictInsert snapT2 "K"
        { exConcept "K" 5 (700001/1000000) none with
          deployment_year := some 2030, deployed_capacity_mw := AVG_PLANT_CAPACITY_MW },
       [], ["K"]) ∧
    checkNodeDeploy depsT 2031 (snapT3, [], []) "K" = (snapT3, [], []) ∧
    ((dictLookup (fwdStateAt nodesK depsK 1 none [] 2).st "K").map
      (·.deployment_year)) = some (some 1) := by
  have e1 : findCriticalPathTop ⟨depsT, snapT1⟩ [] "K" =
      (some (((5 : ℚ) : WithTop ℚ), (7/10 : ℚ)), []) := by
    simp [findCriticalPathTop, cpFuel, findCriticalPath, evalListCP, depsT, snapT1,
      exConcept, dictLookup, List.find?, pyMaxTimes, pyProd]
  have e2 : findCriticalPathTop ⟨depsT, snapT2⟩ [] "K" =
      (some (((5 : ℚ) : WithTop ℚ), (700001/1000000 : ℚ)), []) := by
    simp [findCriticalPathTop, cpFuel, findCriticalPath, evalListCP, depsT, snapT2,
      exConcept, dictLookup, List.find?, pyMaxTimes, pyProd]
  have l1 : dictLookup snapT1 "K" = some (exConcept "K" 5 (7/10) none) := by
    simp [snapT1, dictLookup, List.find?]
  have l2 : dictLookup snapT2 "K" = some (exConcept "K" 5 (700001/1000000) none) := by
    simp [snapT2, dictLookup, List.find?]
  have l3 : dictLookup snapT3 "K" = some (exConcept "K" 5 (9/10) (some 2030)) := by
    simp [snapT3, dictLookup, List.find?]
  have p1 : prereqsAllComplete depsT snapT1 "K" = true := by
    simp [prereqsAllComplete, depsT, dictLookup, List.find?]
  have p2 : prereqsAllComplete depsT snapT2 "K" = true := by
    simp [prereqsAllComplete, depsT, dictLookup, List.find?]
  refine ⟨?_, ?_, ?_, ?_⟩
  · have h := (C5_deployment_threshold_and_permanence.1 depsT 2030 snapT1 [] [] "K" (exConcept "K" 5 (7/10) none)
      l1 (by simp [exConcept]) (by simp [exConcept, truthyYear]) p1).2
    rw [e1] at h
    have := h (by norm_num)
    simpa [e1] using this
  · have h := (C5_deployment_threshold_and_permanence.1 depsT 2030 snapT2 [] [] "K"
      (exConcept "K" 5 (700001/1000000) none)
      l2 (by simp [exConcept]) (by simp [exConcept, truthyYear]) p2).1
    rw [e2] at h
    have := h (by norm_num)
    simpa [e2] using this
  · exact C5_deployment_threshold_and_permanence.2.1 depsT 2031 snapT3 [] [] "K" (exConcept "K" 5 (9/10) (some 2030))
      l3 (by simp [exConcept, truthyYear])
  · have hst : fwdStateAt nodesK depsK 1 none [] 1 =
        ⟨[("K", { label := "K", typ := some "ReactorConcept", trl_current := some "7",
                  trlProjected := false, initial_time := 5, time_remaining := 5,
                  prob_of_success := 9/10, is_complete := false,
                  deployment_year := some 1, deployed_capacity_mw := 1000 })], []⟩ := by
      simp [fwdStateAt, fwdYearStep, advanceTechnologiesOneYear, advanceNodeFwd,
        checkForDeployments, checkNodeDeploy, findCriticalPathTop, cpFuel,
        findCriticalPath, evalListCP, nodesK, depsK, nodeK, buildNodesDict,
        buildDependencyMap, seedFwd, seedNodeFwd, getInitialTimeEstimate,
        trlNumeric, takeUntilChar, parseDecimal, trimChars, splitChar, decDigitsVal,
        decDigitsValAux, charDigitVal, isPySpace, initialProbOfTrl,
        TRL_PROBABILITY_MAP, dictLookup, dictKeys, dictMem, dictInsert, dictUpdate,
        List.find?, prereqsAllComplete, truthyYear, pyMaxTimes, pyProd, isTracked,
        AVG_PLANT_CAPACITY_MW]
      norm_num
    have h1 : ((dictLookup (fwdStateAt nodesK depsK 1 none [] 1).st "K").map
        (·.deployment_year)) = some (some 1) := by
      rw [hst]
      simp [dictLookup, List.find?]
    exact C5_deployment_threshold_and_permanence.2.2 nodesK depsK 1 none [] 1 2 "K" 1 (by norm_num) (by norm_num) h1

/-! ## C6 — discounted lifetime energy formula -/

/-- **C6**: the code's discounted-lifetime-MWh function agrees with the spec's
formula everywhere: for finite deployment year `Y` it is
`sum over i < 60 with Y + i > currentYear of
(1000 × 0.90 × 24 × 365) / 1.05 ^ (Y + i - currentYear)` (no credit for years
at or before the current year), for `Y = infinity` it is `0`; and the pathway
energy of a concept list is exactly the sum, over the evaluator's results, of
this discounted energy at `currentYear + time` multiplied by the critical-path
probability. -/
theorem C6_discounted_lifetime_energy :
    (∀ Y : WithTop ℚ, calculateDiscountedMwh Y = specDiscountedLifetimeEnergy Y)
    ∧ calculateDiscountedMwh ⊤ = 0
    ∧ ∀ (env : SchedEnv) (cs : List String),
        calculatePathwayMwh env cs =
          ((pathwayEvalList env [] cs).map
            (fun v => calculateDiscountedMwh (((CURRENT_YEAR : ℚ) : WithTop ℚ) + v.1) * (v.2 : ℝ))).sum := by
  refine ⟨fun Y => rfl, rfl, fun env cs => ?_⟩
  have key : ∀ (cs : List String) (cache : CPCache) (acc : ℝ),
      (pathwayFold env (acc, cache) cs).1 =
        acc + ((pathwayEvalList env cache cs).map
          (fun v => calculateDiscountedMwh (((CURRENT_YEAR : ℚ) : WithTop ℚ) + v.1) * (v.2 : ℝ))).sum := by
    intro cs
    induction cs with
    | nil => intro cache acc; simp [pathwayFold, pathwayEvalList]
    | cons c rest ih =>
      intro cache acc
      simp only [pathwayFold, pathwayEvalList, List.map_cons, List.sum_cons]
      rw [ih]
      ring
  simpa [calculatePathwayMwh] using key cs [] 0

/-! ## C7 — readiness-based initial time estimate -/

/-- **C7**: the initial time estimate is `7.5` years under the
projected-future-readiness annotation, `(9 - readiness) * 2.5` years when the
readiness parses (the strategic variant flooring it at `0.1`), and `5.0`
years otherwise; and the `initial_time` field each seeding installs — the
divisor of the downstream risk-reduction rate `(1 - p0) / initial_time` — is
strictly positive, never zero, in both simulators. -/
theorem C7_initial_time_estimate_branches :
    (∀ n : InputNode, n.trlProjected = true →
        runSimRawEstimate n = 15/2 ∧ getInitialTimeEstimate n = 15/2)
    ∧ (∀ (n : InputNode) (v : ℚ), n.trlProjected = false →
        trlNumeric n.trl_current = some v →
        runSimRawEstimate n = (9 - v) * (5/2) ∧
        getInitialTimeEstimate n = max (1/10) ((9 - v) * (5/2)))
    ∧ (∀ n : InputNode, n.trlProjected = false →
        trlNumeric n.trl_current = none →
        runSimRawEstimate n = 5 ∧ getInitialTimeEstimate n = 5)
    ∧ ∀ n : InputNode,
        0 < (seedNodeRS n).initial_time ∧ (seedNodeRS n).initial_time ≠ 0 ∧
        0 < (seedNodeFwd n).initial_time ∧ (seedNodeFwd n).initial_time ≠ 0 := by
  refine ⟨?_, ?_, ?_, ?_⟩
  · intro n h; simp [runSimRawEstimate, getInitialTimeEstimate, h]
  · intro n v h hv; simp [runSimRawEstimate, getInitialTimeEstimate, h, hv]
  · intro n h hv; simp [runSimRawEstimate, getInitialTimeEstimate, h, hv]
  · intro n
    have hrs : 0 < (seedNodeRS n).initial_time := by
      simp only [seedNodeRS]
      split
      · assumption
      · norm_num
    have hfwd : 0 < (seedNodeFwd n).initial_time := by
      simp only [seedNodeFwd, getInitialTimeEstimate]
      split
      · norm_num
      · split
        · exact lt_of_lt_of_le (by norm_num) (le_max_left _ _)
        · norm_num
    exact ⟨hrs, ne_of_gt hrs, hfwd, ne_of_gt hfwd⟩

/-- Witness for C7: the projected node `M` (7.5 years), readiness-4 node `B`
(`(9-4)*2.5 = 12.5` years both ways), unparseable node `U` (5.0 years), and a
positive seeded `initial_time`. -/
theorem C7_initial_time_estimate_witness :
    (nodeM.trlProjected = true ∧ runSimRawEstimate nodeM = 15/2) ∧
    (trlNumeric nodeB.trl_current = some 4 ∧ runSimRawEstimate nodeB = 25/2 ∧
      getInitialTimeEstimate nodeB = 25/2) ∧
    (trlNumeric nodeU.trl_current = none ∧ runSimRawEstimate nodeU = 5 ∧
      getInitialTimeEstimate nodeU = 5) ∧
    0 < (seedNodeRS nodeU).initial_time := by
  have h4 : trlNumeric nodeB.trl_current = some 4 := by
    simp [trlNumeric, nodeB, takeUntilChar, parseDecimal, trimChars, splitChar,
      decDigitsVal, decDigitsValAux, charDigitVal, isPySpace]
  have hU : trlNumeric nodeU.trl_current = none := by
    simp [trlNumeric, nodeU, takeUntilChar, parseDecimal, trimChars, splitChar,
      decDigitsVal, decDigitsValAux, charDigitVal, isPySpace]
  have h2 := C7_initial_time_estimate_branches.2.1 nodeB 4 rfl h4
  have h3 := C7_initial_time_estimate_branches.2.2.1 nodeU rfl hU
  refine ⟨⟨rfl, (C7_initial_time_estimate_branches.1 nodeM rfl).1⟩, ⟨h4, ?_, ?_⟩,
    ⟨hU, h3.1, h3.2⟩, (C7_initial_time_estimate_branches.2.2.2 nodeU).1⟩
  · rw [h2.1]; norm_num
  · rw [h2.2]; norm_num

/-! ## C9 — Graph Store adjacency round-trip -/

/-- The dependency builder processes exactly the flattened pair sequence. -/
theorem buildDep_flat (edges : List InputEdge) (ids : List String) :
    buildDependencyMap ids edges =
      (flatEdges edges).foldl depAction (ids.map (fun i => (i, []))) := by
  suffices h : ∀ (es : List InputEdge) (d : List (String × List String)),
      es.foldl (fun d e => (effTargets e).foldl (fun d t => depAction d (e.source, t)) d) d
        = (flatEdges es).foldl depAction d by
    exact h edges _
  intro es
  induction es with
  | nil => intro d; simp [flatEdges]
  | cons e rest ih =>
    intro d
    simp only [List.foldl_cons, flatEdges, List.map_cons, List.flatten_cons,
      List.foldl_append]
    rw [← flatEdges, ih, List.foldl_map]

/-- The successor builder processes exactly the flattened pair sequence. -/
theorem buildSucc_flat (edges : List InputEdge) (ids : List String) :
    buildSuccessorMap ids edges =
      (flatEdges edges).foldl succAction (ids.map (fun i => (i, []))) := by
  suffices h : ∀ (es : List InputEdge) (d : List (String × List (Option String))),
      es.foldl (fun d e => (effTargets e).foldl (fun d t => succAction d (e.source, t)) d) d
        = (flatEdges es).foldl succAction d by
    exact h edges _
  intro es
  induction es with
  | nil => intro d; simp [flatEdges]
  | cons e rest ih =>
    intro d
    simp only [List.foldl_cons, flatEdges, List.map_cons, List.flatten_cons,
      List.foldl_append]
    rw [← flatEdges, ih, List.foldl_map]

/-- Folding the per-pair append over any pair list extends a row by exactly
the sources of the pairs targeting it. -/
theorem depFold_lookup (ps : List (String × Option String)) :
    ∀ (d : List (String × List String)) (n : String) (l : List String),
    n ≠ "" → dictLookup d n = some l →
    dictLookup (ps.foldl depAction d) n = some (l ++ depContribs n ps) := by
  induction ps with
  | nil => intro d n l hne hl; simpa [depContribs] using hl
  | cons p ps ih =>
    intro d n l hne hl
    simp only [List.foldl_cons]
    cases hp : p.2 with
    | none =>
      have hact : depAction d p = d := by simp [depAction, hp]
      have hc : depContribs n (p :: ps) = depContribs n ps := by
        simp [depContribs, List.filterMap_cons, hp]
      rw [hact, hc]
      exact ih d n l hne hl
    | some tid =>
      by_cases htid : tid = n
      · subst htid
        have hmem : dictMem d tid = true := by
          rw [dictMem_isSome, hl]; rfl
        have hact : depAction d p = dictUpdate d tid (fun s => s ++ [p.1]) := by
          simp [depAction, hp, hne, hmem]
        have hl2 : dictLookup (dictUpdate d tid (fun s => s ++ [p.1])) tid
            = some (l ++ [p.1]) := by
          rw [dictLookup_dictUpdate, if_pos rfl, hl]; rfl
        have hc : depContribs tid (p :: ps) = p.1 :: depContribs tid ps := by
          have heq : p.2 = some tid := hp
          simp [depContribs, List.filterMap_cons, heq]
        rw [hact, hc, ih _ _ _ hne hl2]
        simp
      · have hc : depContribs n (p :: ps) = depContribs n ps := by
          have hno : ¬ (p.2 = some n) := by simp [hp, htid]
          simp [depContribs, List.filterMap_cons, hno]
        have hl2 : dictLookup (depAction d p) n = some l := by
          simp only [depAction, hp]
          split
          · rw [dictLookup_dictUpdate, if_neg (fun h => htid h.symm)]; exact hl
          · exact hl
        rw [hc]
        exact ih _ _ _ hne hl2

/-- Folding the per-pair append over any pair list extends a successor row by
exactly the targets of the pairs leaving it. -/
theorem succFold_lookup (ps : List (String × Option String)) :
    ∀ (d : List (String × List (Option String))) (s : String) (l : List (Option String)),
    s ≠ "" → dictLookup d s = some l →
    dictLookup (ps.foldl succAction d) s = some (l ++ succContribs s ps) := by
  induction ps with
  | nil => intro d s l hne hl; simpa [succContribs] using hl
  | cons p ps ih =>
    intro d s l hne hl
    simp only [List.foldl_cons]
    by_cases hsrc : p.1 = s
    · subst hsrc
      have hmem : dictMem d p.1 = true := by
        rw [dictMem_isSome, hl]; rfl
      have hact : succAction d p = dictUpdate d p.1 (fun t => t ++ [p.2]) := by
        simp [succAction, hne, hmem]
      have hl2 : dictLookup (dictUpdate d p.1 (fun t => t ++ [p.2])) p.1
          = some (l ++ [p.2]) := by
        rw [dictLookup_dictUpdate, if_pos rfl, hl]; rfl
      have hc : succContribs p.1 (p :: ps) = p.2 :: succContribs p.1 ps := by
        simp [succContribs, List.filter_cons]
      rw [hact, hc, ih _ _ _ hne hl2]
      simp
    · have hc : succContribs s (p :: ps) = succContribs s ps := by
        have hno : ¬ (p.1 = s) := hsrc
        simp [succContribs, List.filter_cons, hno]
      have hl2 : dictLookup (succAction d p) s = some l := by
        simp only [succAction]
        split
        · rw [dictLookup_dictUpdate, if_neg (fun h => hsrc h.symm)]; exact hl
        · exact hl
      rw [hc]
      exact ih _ _ _ hne hl2

/-- The dependency fold never changes the key sequence. -/
theorem depFold_keys (ps : List (String × Option String)) :
    ∀ d : List (String × List String),
    dictKeys (ps.foldl depAction d) = dictKeys d := by
  induction ps with
  | nil => intro d; rfl
  | cons p ps ih =>
    intro d
    simp only [List.foldl_cons]
    rw [ih]
    cases hp : p.2 with
    | none => simp [depAction, hp]
    | some tid =>
      simp only [depAction, hp]
      by_cases hcond : tid ≠ "" ∧ dictMem d tid = true
      · rw [if_pos hcond]; exact dictKeys_dictUpdate d tid _
      · rw [if_neg hcond]

/-- The successor fold never changes the key sequence. -/
theorem succFold_keys (ps : List (String × Option String)) :
    ∀ d : List (String × List (Option String)),
    dictKeys (ps.foldl succAction d) = dictKeys d := by
  induction ps with
  | nil => intro d; rfl
  | cons p ps ih =>
    intro d
    simp only [List.foldl_cons]
    rw [ih]
    simp only [succAction]
    by_cases hcond : p.1 ≠ "" ∧ dictMem d p.1 = true
    · rw [if_pos hcond]; exact dictKeys_dictUpdate d p.1 _
    · rw [if_neg hcond]

/-- **C9** (amended — node ids must be non-empty strings): Graph Store
construction is total, its two adjacency maps are keyed by exactly the given
node ids (so unknown references in edges never crash construction), querying
`prerequisitesOf` for any known non-empty id reproduces exactly the sources of
the given edges targeting it, querying `successorsOf` reproduces exactly the
raw targets of the given edges leaving it, and an edge with
`targets = [t1, ..., tk]` is interchangeable with the `k` single-target edges
from the same source in both maps. -/
theorem C9_graph_store_round_trip :
    (∀ (ids : List String) (edges : List InputEdge),
       dictKeys (buildDependencyMap ids edges) = ids ∧
       dictKeys (buildSuccessorMap ids edges) = ids)
    ∧ (∀ (ids : List String) (edges : List InputEdge) (n : String),
       n ∈ ids → n ≠ "" →
       dictLookup (buildDependencyMap ids edges) n = some (depContribs n (flatEdges edges)))
    ∧ (∀ (ids : List String) (edges : List InputEdge) (s : String),
       s ∈ ids → s ≠ "" →
       dictLookup (buildSuccessorMap ids edges) s = some (succContribs s (flatEdges edges)))
    ∧ ∀ (ids : List String) (pre post : List InputEdge) (s : String) (ts : List String),
       buildDependencyMap ids (pre ++ [{ source := s, target := none, targets := some ts }] ++ post) =
         buildDependencyMap ids (pre ++ ts.map (fun t => { source := s, target := some t, targets := none }) ++ post) ∧
       buildSuccessorMap ids (pre ++ [{ source := s, target := none, targets := some ts }] ++ post) =
         buildSuccessorMap ids (pre ++ ts.map (fun t => { source := s, target := some t, targets := none }) ++ post) := by
  have hflat : ∀ (a b : List InputEdge), flatEdges (a ++ b) = flatEdges a ++ flatEdges b := by
    intro a b; simp [flatEdges]
  have hmulti : ∀ (s : String) (ts : List String),
      flatEdges [{ source := s, target := none, targets := some ts }] =
        flatEdges (ts.map (fun t => { source := s, target := some t, targets := none })) := by
    intro s ts
    induction ts with
    | nil => simp [flatEdges, effTargets]
    | cons t rest ih =>
      simp only [flatEdges, effTargets, List.map_cons, List.flatten_cons] at ih ⊢
      simp_all
  refine ⟨?_, ?_, ?_, ?_⟩
  · intro ids edges
    rw [buildDep_flat, buildSucc_flat]
    constructor
    · rw [depFold_keys]; simp [dictKeys, Function.comp_def]
    · rw [succFold_keys]; simp [dictKeys, Function.comp_def]
  · intro ids edges n hmem hne
    rw [buildDep_flat]
    have h0 : dictLookup (ids.map (fun i => (i, ([] : List String)))) n = some [] := by
      rw [dictLookup_constMap, if_pos hmem]
    simpa using depFold_lookup (flatEdges edges) _ n [] hne h0
  · intro ids edges s hmem hne
    rw [buildSucc_flat]
    have h0 : dictLookup (ids.map (fun i => (i, ([] : List (Option String))))) s = some [] := by
      rw [dictLookup_constMap, if_pos hmem]
    simpa using succFold_lookup (flatEdges edges) _ s [] hne h0
  · intro ids pre post s ts
    constructor
    · rw [buildDep_flat, buildDep_flat, hflat, hflat, hflat, hflat, hmulti]
    · rw [buildSucc_flat, buildSucc_flat, hflat, hflat, hflat, hflat, hmulti]

/-- **C9 counterexample**: on the node set `{""}` with the edge `"" → ""`
(legal input: ids are strings), the round-trip fails as the claim states it —
Python truthiness drops the empty-string endpoint, so `prerequisitesOf("")` is
`[]` although the given edges target `""` once. -/
theorem C9_empty_id_counterexample :
    dictLookup (buildDependencyMap [""] [edgeEmpty]) "" ≠
      some (depContribs "" (flatEdges [edgeEmpty])) ∧
    dictLookup (buildDependencyMap [""] [edgeEmpty]) "" = some [] ∧
    depContribs "" (flatEdges [edgeEmpty]) = [""] := by
  refine ⟨?_, ?_, ?_⟩ <;>
    simp [buildDependencyMap, depAction, effTargets, edgeEmpty, dictMem, dictUpdate,
      dictLookup, flatEdges, depContribs]

/-- Witness for C9 on the concrete `M → C` graph. -/
theorem C9_graph_store_round_trip_witness :
    dictLookup (buildDependencyMap ["M", "C"] [edgeMC]) "C" =
      some (depContribs "C" (flatEdges [edgeMC])) ∧
    dictLookup (buildSuccessorMap ["M", "C"] [edgeMC]) "M" =
      some (succContribs "M" (flatEdges [edgeMC])) :=
  ⟨C9_graph_store_round_trip.2.1 ["M", "C"] [edgeMC] "C" (by simp) (by simp),
   C9_graph_store_round_trip.2.2.1 ["M", "C"] [edgeMC] "M" (by simp) (by simp)⟩

/-! ## C8 — AND-semantics prerequisite gating -/

/-- **C8**: AND-semantics gating in the yearly scheduler.  (i) A tracked,
incomplete node whose prerequisite test fails is recorded `Pending` that year
and the snapshot is left untouched — its `time_remaining` and
`prob_of_success` are not advanced; (ii) one incomplete prerequisite already
fails the test, however many others are complete; (iii) conversely a node can
only be recorded `Active` when every prerequisite is complete. -/
theorem C8_and_semantics_gating :
    (∀ (deps : List (String × List String)) (st : List (String × SimNode))
       (statuses : List (String × String)) (nid : String) (n : SimNode),
      dictLookup st nid = some n → isTracked n = true → n.is_complete = false →
      prereqsAllComplete deps st nid = false →
      processNodeRS deps (st, statuses) nid = (st, dictInsert statuses n.label "Pending"))
    ∧ (∀ (deps : List (String × List String)) (st : List (String × SimNode))
         (nid pid : String) (pn : SimNode),
      pid ∈ (dictLookup deps nid).getD [] →
      dictLookup st pid = some pn → pn.is_complete = false →
      prereqsAllComplete deps st nid = false)
    ∧ (∀ (deps : List (String × List String)) (st : List (String × SimNode))
       (statuses : List (String × String)) (nid : String) (n : SimNode),
      dictLookup st nid = some n → isTracked n = true →
      (processNodeRS deps (st, statuses) nid).2 = dictInsert statuses n.label "Active" →
      n.is_complete = false → prereqsAllComplete deps st nid = true) := by
  refine ⟨?_, ?_, ?_⟩
  · intro deps st statuses nid n hn htr hc hact
    simp [processNodeRS, hn, htr, hc, hact]
  · intro deps st nid pid pn hmem hp hc
    simp only [prereqsAllComplete, List.all_eq_false]
    exact ⟨pid, hmem, by simp [hp, hc]⟩
  · intro deps st statuses nid n hn htr hres hc
    by_contra hfalse
    have hact : prereqsAllComplete deps st nid = false :=
      Bool.eq_false_iff.mpr hfalse
    rw [(by simp [processNodeRS, hn, htr, hc, hact] :
      processNodeRS deps (st, statuses) nid = (st, dictInsert statuses n.label "Pending"))] at hres
    have h1 := congrArg (fun d => dictLookup d n.label) hres
    simp only [dictLookup_dictInsert_self] at h1
    exact absurd h1 (by simp)

/-- Witness for C8: in the seeded `P1, P2 → B` graph, `P1` is complete,
`P2` is not, and `B` is recorded `Pending` with the snapshot unchanged. -/
theorem C8_and_semantics_witness :
    (dictLookup (seedRS nodesP12B) "P1").map (·.is_complete) = some true ∧
    (dictLookup (seedRS nodesP12B) "P2").map (·.is_complete) = some false ∧
    ("P2" ∈ (dictLookup depsP12B "B").getD []) ∧
    processNodeRS depsP12B (seedRS nodesP12B, []) "B" =
      (seedRS nodesP12B, [("B", "Pending")]) := by
  have hB : dictLookup (seedRS nodesP12B) "B" = some (seedNodeRS nodeB) := by
    simp [seedRS, nodesP12B, buildNodesDict, dictInsert, dictLookup, List.find?,
      nodeP1, nodeP2, nodeB]
  have hP2 : dictLookup (seedRS nodesP12B) "P2" = some (seedNodeRS nodeP2) := by
    simp [seedRS, nodesP12B, buildNodesDict, dictInsert, dictLookup, List.find?,
      nodeP1, nodeP2, nodeB]
  have hP1 : dictLookup (seedRS nodesP12B) "P1" = some (seedNodeRS nodeP1) := by
    simp [seedRS, nodesP12B, buildNodesDict, dictInsert, dictLookup, List.find?,
      nodeP1, nodeP2, nodeB]
  have hdep : dictLookup depsP12B "B" = some ["P1", "P2"] := by
    simp [depsP12B, nodesP12B, buildNodesDict, dictInsert, dictKeys,
      buildDependencyMap, depAction, effTargets, dictMem, dictUpdate, dictLookup,
      List.find?, nodeP1, nodeP2, nodeB]
  have hP2inc : (seedNodeRS nodeP2).is_complete = false := by
    simp [seedNodeRS, nodeP2, runSimRawEstimate, trlNumeric, takeUntilChar,
      parseDecimal, trimChars, splitChar, decDigitsVal, decDigitsValAux,
      charDigitVal, isPySpace]
    norm_num
  have hBtr : isTracked (seedNodeRS nodeB) = true := by
    simp [isTracked, seedNodeRS, nodeB]
  have hBinc : (seedNodeRS nodeB).is_complete = false := by
    simp [seedNodeRS, nodeB, runSimRawEstimate, trlNumeric, takeUntilChar,
      parseDecimal, trimChars, splitChar, decDigitsVal, decDigitsValAux,
      charDigitVal, isPySpace]
    norm_num
  have hmem : "P2" ∈ (dictLookup depsP12B "B").getD [] := by
    rw [hdep]; simp
  have hfalse : prereqsAllComplete depsP12B (seedRS nodesP12B) "B" = false :=
    C8_and_semantics_gating.2.1 depsP12B (seedRS nodesP12B) "B" "P2" (seedNodeRS nodeP2) hmem hP2 hP2inc
  have h := C8_and_semantics_gating.1 depsP12B (seedRS nodesP12B) [] "B" (seedNodeRS nodeB) hB hBtr hBinc hfalse
  refine ⟨?_, ?_, hmem, ?_⟩
  · rw [hP1]
    simp [seedNodeRS, nodeP1, runSimRawEstimate, trlNumeric, takeUntilChar,
      parseDecimal, trimChars, splitChar, decDigitsVal, decDigitsValAux,
      charDigitVal, isPySpace]
  · rw [hP2]
    simp [hP2inc]
  · rw [h]
    simp [seedNodeRS, nodeB, dictInsert]

/-! ## C10 — missing node ids evaluate as instantly complete and certain -/

/-- **C10**: a node id absent from the snapshot evaluates to `(0, 1.0)` (the
cache is left untouched), and a direct prerequisite reference to a missing id
contributes zero additional time and probability factor `1` to its dependent:
a node `X` whose only prerequisite is the missing id `m` evaluates to exactly
its own `(time_remaining, prob_of_success)`. -/
theorem C10_missing_node_evaluates_complete :
    (∀ (env : SchedEnv) (fuel : ℕ) (nid : String),
      dictLookup env.snap nid = none →
      findCriticalPath env (fuel + 1) [] [] nid =
        (some (((0 : ℚ) : WithTop ℚ), (1 : ℚ)), []))
    ∧
    ∀ (env : SchedEnv) (fuel : ℕ) (X m : String) (nX : SimNode),
      dictLookup env.deps X = some [m] →
      dictLookup env.snap X = some nX →
      dictLookup env.snap m = none →
      findCriticalPath env (fuel + 2) [] [] X =
        (some (((nX.time_remaining : ℚ) : WithTop ℚ), nX.prob_of_success),
         [(X, (((nX.time_remaining : ℚ) : WithTop ℚ), nX.prob_of_success))]) := by
  constructor
  · intro env fuel nid h
    simp [findCriticalPath, h]
  · intro env fuel X m nX hd hX hm
    have hne : m ≠ X := by
      intro he; rw [he, hX] at hm; exact Option.noConfusion hm
    simp [findCriticalPath, evalListCP, hd, hX, hm, hne, pyMaxTimes, pyProd, dictInsert]

/-- Witness for C10 on `envMissing` (`X` depends on the absent id `Z`). -/
theorem C10_missing_node_witness :
    findCriticalPath envMissing 4 [] [] "Z" =
      (some (((0 : ℚ) : WithTop ℚ), (1 : ℚ)), []) ∧
    findCriticalPath envMissing 4 [] [] "X" =
      (some (((10 : ℚ) : WithTop ℚ), (7/10 : ℚ)),
       [("X", (((10 : ℚ) : WithTop ℚ), (7/10 : ℚ)))]) :=
  ⟨C10_missing_node_evaluates_complete.1 envMissing 3 "Z"
     (by simp [envMissing, dictLookup]),
   by
    have h := C10_missing_node_evaluates_complete.2 envMissing 2 "X" "Z"
      (exNode "X" 10 (7/10) false)
      (by simp [envMissing, dictLookup])
      (by simp [envMissing, dictLookup])
      (by simp [envMissing, dictLookup])
    simpa [exNode] using h⟩

/-! ## C3: monotonicity and bounds of the per-node clock and probability -/

theorem dictLookup_forallP {κ α : Type} [BEq κ] (P : α → Prop) :
    ∀ (d : List (κ × α)), (∀ p ∈ d, P p.2) → ∀ k v, dictLookup d k = some v → P v := by
  intro d
  induction d with
  | nil => intro _ k v h; simp at h
  | cons p rest ih =>
    intro hall k v h
    cases hbeq : (p.1 == k) with
    | true =>
      have hf : List.find? (fun q => q.1 == k) (p :: rest) = some p :=
        List.find?_cons_of_pos _ hbeq
      simp only [dictLookup, hf] at h
      replace h : p.2 = v := by simpa using h
      rw [← h]
      exact hall p (by simp)
    | false =>
      have hf : List.find? (fun q => q.1 == k) (p :: rest) =
          List.find? (fun q => q.1 == k) rest :=
        List.find?_cons_of_neg _ (by simp [hbeq])
      simp only [dictLookup, hf] at h
      exact ih (fun q hq => hall q (by simp [hq])) k v h

theorem trlMapGetD_bounds (s : List Char) :
    0 ≤ (dictLookup TRL_PROBABILITY_MAP s).getD (60/100) ∧
    (dictLookup TRL_PROBABILITY_MAP s).getD (60/100) ≤ 1 := by
  cases hl : dictLookup TRL_PROBABILITY_MAP s with
  | none => norm_num
  | some v =>
    simp only [Option.getD_some]
    refine dictLookup_forallP (fun q => 0 ≤ q ∧ q ≤ 1) TRL_PROBABILITY_MAP ?_ _ v hl
    intro p hp
    simp [TRL_PROBABILITY_MAP] at hp
    rcases hp with rfl | rfl | rfl | rfl | rfl | rfl | rfl | rfl | rfl | rfl | rfl | rfl |
      rfl | rfl | rfl | rfl <;> norm_num

theorem initialProb_bounds (trl : Option String) :
    0 ≤ initialProbOfTrl trl ∧ initialProbOfTrl trl ≤ 1 := by
  simp only [initialProbOfTrl]
  exact trlMapGetD_bounds _

theorem riskRate_nonneg (n : SimNode) (h : 0 < n.initial_time) : 0 ≤ riskRate n := by
  have hb := initialProb_bounds n.trl_current
  exact div_nonneg (by linarith [hb.2]) (le_of_lt h)

theorem relStar_refl (n : SimNode) : relStar n n := by
  simp [relStar, sameMeta]

theorem relStar_trans {a b c : SimNode} (h1 : relStar a b) (h2 : relStar b c) :
    relStar a c := by
  obtain ⟨t1, p1, m1, l1, y1, c1, j1, i1⟩ := h1
  obtain ⟨t2, p2, m2, l2, y2, c2, j2, i2⟩ := h2
  exact ⟨le_trans t2 t1, le_trans p1 p2, fun h => m2 (m1 h),
    l2.trans l1, y2.trans y1, c2.trans c1, j2.trans j1, i2.trans i1⟩

theorem seedNodeRS_inv (n : InputNode) : rsInv (seedNodeRS n) := by
  have hb := initialProb_bounds n.trl_current
  simp only [rsInv, seedNodeRS, riskRate]
  refine ⟨?_, hb.1, hb.2, ?_⟩
  · split
    · assumption
    · norm_num
  · intro hc
    simp only [decide_eq_false_iff_not, not_le] at hc
    simp only [if_pos hc]
    refine ⟨hc, ?_⟩
    have hne : runSimRawEstimate n ≠ 0 := ne_of_gt hc
    field_simp

theorem seedNodeFwd_inv (n : InputNode) : fwdInv (seedNodeFwd n) := by
  have hb := initialProb_bounds n.trl_current
  have hpos : 0 < getInitialTimeEstimate n := by
    simp only [getInitialTimeEstimate]
    split
    · norm_num
    · split
      · exact lt_of_lt_of_le (by norm_num) (le_max_left _ _)
      · norm_num
  exact ⟨hpos, hb.1, hb.2⟩

theorem riskRate_fields (n : SimNode) (tr p : ℚ) :
    riskRate { n with time_remaining := tr, prob_of_success := p } = riskRate n := rfl

theorem riskRate_fields_tr (n : SimNode) (tr : ℚ) :
    riskRate { n with time_remaining := tr } = riskRate n := rfl

theorem rsAdvanceFields_eq_done (n : SimNode) (h1 : 0 < n.time_remaining)
    (h2 : n.time_remaining - 1 ≤ 0) :
    rsAdvanceFields n =
      { n with time_remaining := n.time_remaining - 1,
               prob_of_success := 1, is_complete := true } := by
  simp [rsAdvanceFields, h1, h2]

theorem rsAdvanceFields_eq_active (n : SimNode) (h1 : 0 < n.time_remaining)
    (h2 : ¬ n.time_remaining - 1 ≤ 0) :
    rsAdvanceFields n =
      { n with time_remaining := n.time_remaining - 1,
               prob_of_success := n.prob_of_success + riskRate n } := by
  simp [rsAdvanceFields, h1, h2]

theorem rsAdvanceFields_step (n : SimNode) (hinv : rsInv n)
    (hc : n.is_complete = false) :
    relStar n (rsAdvanceFields n) ∧ rsInv (rsAdvanceFields n) := by
  obtain ⟨hi, hp0, hp1, hbud⟩ := hinv
  obtain ⟨htr, hb⟩ := hbud hc
  have hrate : 0 ≤ riskRate n := riskRate_nonneg n hi
  by_cases hdone : n.time_remaining - 1 ≤ 0
  · rw [rsAdvanceFields_eq_done n htr hdone]
    constructor
    · refine ⟨?_, ?_, fun h => ?_, rfl, rfl, rfl, rfl, rfl⟩
      · show n.time_remaining - 1 ≤ n.time_remaining
        linarith
      · show n.prob_of_success ≤ 1
        exact hp1
      · show (-1 : ℚ) < n.time_remaining - 1
        linarith
    · refine ⟨hi, ?_, ?_, fun h => absurd h (by simp)⟩
      · show (0 : ℚ) ≤ 1
        norm_num
      · show (1 : ℚ) ≤ 1
        norm_num
  · rw [rsAdvanceFields_eq_active n htr hdone]
    push_neg at hdone
    constructor
    · refine ⟨?_, ?_, fun h => ?_, rfl, rfl, rfl, rfl, rfl⟩
      · show n.time_remaining - 1 ≤ n.time_remaining
        linarith
      · show n.prob_of_success ≤ n.prob_of_success + riskRate n
        linarith
      · show (-1 : ℚ) < n.time_remaining - 1
        linarith
    · refine ⟨hi, ?_, ?_, fun _ => ⟨?_, ?_⟩⟩
      · show 0 ≤ n.prob_of_success + riskRate n
        linarith
      · show n.prob_of_success + riskRate n ≤ 1
        nlinarith
      · show 0 < n.time_remaining - 1
        exact hdone
      · rw [riskRate_fields]
        show n.prob_of_success + riskRate n +
          (n.time_remaining - 1) * riskRate n ≤ 1
        have hring : n.prob_of_success + riskRate n +
            (n.time_remaining - 1) * riskRate n =
            n.prob_of_success + n.time_remaining * riskRate n := by ring
        linarith [hring]

theorem fwdAdvanceFields_eq_done (n : SimNode) (hi : 0 < n.initial_time)
    (h2 : n.time_remaining - 1 ≤ 0) :
    fwdAdvanceFields n =
      { n with time_remaining := n.time_remaining - 1,
               prob_of_success := 1, is_complete := true } := by
  simp [fwdAdvanceFields, hi, h2]

theorem fwdAdvanceFields_eq_active (n : SimNode) (hi : 0 < n.initial_time)
    (h2 : ¬ n.time_remaining - 1 ≤ 0) :
    fwdAdvanceFields n =
      { n with time_remaining := n.time_remaining - 1,
               prob_of_success := min 1 (n.prob_of_success + riskRate n) } := by
  simp [fwdAdvanceFields, riskRate_fields_tr, hi, h2]

theorem fwdAdvanceFields_step (n : SimNode) (hinv : fwdInv n)
    (h0 : 0 < n.time_remaining) :
    relStar n (fwdAdvanceFields n) ∧ fwdInv (fwdAdvanceFields n) := by
  obtain ⟨hi, hp0, hp1⟩ := hinv
  have hrate : 0 ≤ riskRate n := riskRate_nonneg n hi
  by_cases hdone : n.time_remaining - 1 ≤ 0
  · rw [fwdAdvanceFields_eq_done n hi hdone]
    constructor
    · refine ⟨?_, ?_, fun h => ?_, rfl, rfl, rfl, rfl, rfl⟩
      · show n.time_remaining - 1 ≤ n.time_remaining
        linarith
      · show n.prob_of_success ≤ 1
        exact hp1
      · show (-1 : ℚ) < n.time_remaining - 1
        linarith
    · exact ⟨hi, by norm_num, by norm_num⟩
  · rw [fwdAdvanceFields_eq_active n hi hdone]
    constructor
    · refine ⟨?_, ?_, fun h => ?_, rfl, rfl, rfl, rfl, rfl⟩
      · show n.time_remaining - 1 ≤ n.time_remaining
        linarith
      · show n.prob_of_success ≤ min 1 (n.prob_of_success + riskRate n)
        exact le_min hp1 (by linarith)
      · show (-1 : ℚ) < n.time_remaining - 1
        linarith
    · refine ⟨hi, ?_, ?_⟩
      · show 0 ≤ min 1 (n.prob_of_success + riskRate n)
        exact le_min (by norm_num) (by linarith)
      · show min 1 (n.prob_of_success + riskRate n) ≤ 1
        exact min_le_left _ _

theorem applyAcceleration_eq_idle (n : SimNode) (h0 : ¬ 0 < n.time_remaining) :
    applyAcceleration n = n := by
  simp [applyAcceleration, h0]

theorem applyAcceleration_eq_pos (n : SimNode) (h0 : 0 < n.time_remaining)
    (hi : 0 < n.initial_time) :
    applyAcceleration n =
      { n with time_remaining := max 0 (n.time_remaining - 1),
               prob_of_success := min 1 (n.prob_of_success + riskRate n) } := by
  simp [applyAcceleration, riskRate_fields_tr, h0, hi]

theorem applyAcceleration_step (n : SimNode) (hinv : fwdInv n) :
    relStar n (applyAcceleration n) ∧ fwdInv (applyAcceleration n) := by
  obtain ⟨hi, hp0, hp1⟩ := hinv
  have hrate : 0 ≤ riskRate n := riskRate_nonneg n hi
  by_cases h0 : 0 < n.time_remaining
  · rw [applyAcceleration_eq_pos n h0 hi]
    constructor
    · refine ⟨?_, ?_, fun h => ?_, rfl, rfl, rfl, rfl, rfl⟩
      · show max 0 (n.time_remaining - 1) ≤ n.time_remaining
        exact max_le (le_of_lt h0) (by linarith)
      · show n.prob_of_success ≤ min 1 (n.prob_of_success + riskRate n)
        exact le_min hp1 (by linarith)
      · show (-1 : ℚ) < max 0 (n.time_remaining - 1)
        exact lt_of_lt_of_le (by norm_num) (le_max_left _ _)
    · refine ⟨hi, ?_, ?_⟩
      · show 0 ≤ min 1 (n.prob_of_success + riskRate n)
        exact le_min (by norm_num) (by linarith)
      · show min 1 (n.prob_of_success + riskRate n) ≤ 1
        exact min_le_left _ _
  · rw [applyAcceleration_eq_idle n h0]
    exact ⟨relStar_refl n, hi, hp0, hp1⟩

theorem stRel_refl (a : List (String × SimNode)) : stRel a a :=
  fun _ => ⟨fun n h => ⟨n, h, relStar_refl n⟩, fun h => h⟩

theorem stRel_trans {a b c : List (String × SimNode)}
    (h1 : stRel a b) (h2 : stRel b c) : stRel a c := by
  intro nid
  constructor
  · intro n hn
    obtain ⟨m, hm, r1⟩ := (h1 nid).1 n hn
    obtain ⟨p, hp, r2⟩ := (h2 nid).1 m hm
    exact ⟨p, hp, relStar_trans r1 r2⟩
  · intro hn
    exact (h2 nid).2 ((h1 nid).2 hn)

theorem dictInsert_step (P : SimNode → Prop) (st : List (String × SimNode))
    (nid : String) (n v : SimNode) (hl : dictLookup st nid = some n)
    (hrel : relStar n v) (hv : P v) (hinv : allInvP P st) :
    allInvP P (dictInsert st nid v) ∧ stRel st (dictInsert st nid v) := by
  constructor
  · intro k m hm
    rw [dictLookup_dictInsert] at hm
    by_cases hk : k = nid
    · rw [if_pos hk] at hm
      cases hm
      exact hv
    · rw [if_neg hk] at hm
      exact hinv k m hm
  · intro k
    constructor
    · intro m hm
      by_cases hk : k = nid
      · subst hk
        refine ⟨v, ?_, ?_⟩
        · rw [dictLookup_dictInsert, if_pos rfl]
        · rw [hl] at hm
          cases hm
          exact hrel
      · exact ⟨m, by rw [dictLookup_dictInsert, if_neg hk]; exact hm, relStar_refl m⟩
    · intro hm
      by_cases hk : k = nid
      · subst hk
        rw [hl] at hm
        simp at hm
      · rw [dictLookup_dictInsert, if_neg hk]
        exact hm

theorem dictUpdate_step (P : SimNode → Prop) (st : List (String × SimNode))
    (t : String) (f : SimNode → SimNode)
    (hf : ∀ m, P m → P (f m) ∧ relStar m (f m)) (hinv : allInvP P st) :
    allInvP P (dictUpdate st t f) ∧ stRel st (dictUpdate st t f) := by
  constructor
  · intro k m hm
    rw [dictLookup_dictUpdate] at hm
    by_cases hk : k = t
    · rw [if_pos hk] at hm
      cases ho : dictLookup st k with
      | none => rw [ho] at hm; simp at hm
      | some m0 =>
        rw [ho] at hm
        simp at hm
        rw [← hm]
        exact (hf m0 (hinv k m0 ho)).1
    · rw [if_neg hk] at hm
      exact hinv k m hm
  · intro k
    constructor
    · intro m hm
      by_cases hk : k = t
      · refine ⟨f m, ?_, (hf m (hinv k m hm)).2⟩
        rw [dictLookup_dictUpdate, if_pos hk, hm]
        rfl
      · exact ⟨m, by rw [dictLookup_dictUpdate, if_neg hk]; exact hm, relStar_refl m⟩
    · intro hm
      rw [dictLookup_dictUpdate]
      by_cases hk : k = t
      · rw [if_pos hk, hm]
        rfl
      · rw [if_neg hk]
        exact hm

theorem foldl_step_rel {σ ι : Type} (f : σ → ι → σ) (P : σ → Prop) (R : σ → σ → Prop)
    (hRr : ∀ a, R a a) (hRt : ∀ {a b c}, R a b → R b c → R a c)
    (hstep : ∀ a x, P a → P (f a x) ∧ R a (f a x)) :
    ∀ (L : List ι) (a : σ), P a → P (L.foldl f a) ∧ R a (L.foldl f a) := by
  intro L
  induction L with
  | nil => intro a ha; exact ⟨ha, hRr a⟩
  | cons x xs ih =>
    intro a ha
    obtain ⟨h1, h2⟩ := hstep a x ha
    obtain ⟨h3, h4⟩ := ih (f a x) h1
    exact ⟨h3, hRt h2 h4⟩

theorem processNodeRS_step (deps : List (String × List String))
    (acc : List (String × SimNode) × List (String × String)) (nid : String)
    (hinv : allInvP rsInv acc.1) :
    allInvP rsInv (processNodeRS deps acc nid).1 ∧
    stRel acc.1 (processNodeRS deps acc nid).1 := by
  cases hl : dictLookup acc.1 nid with
  | none =>
    simp only [processNodeRS, hl]
    exact ⟨hinv, stRel_refl _⟩
  | some n =>
    simp only [processNodeRS, hl]
    split_ifs with h1 h2 h3
    · exact ⟨hinv, stRel_refl _⟩
    · have hn := hinv nid n hl
      have hc : n.is_complete = false := by simpa using h2
      obtain ⟨hrel, hinv2⟩ := rsAdvanceFields_step n hn hc
      exact dictInsert_step rsInv acc.1 nid n _ hl hrel hinv2 hinv
    · exact ⟨hinv, stRel_refl _⟩
    · exact ⟨hinv, stRel_refl _⟩

theorem yearStepRS_rel (deps : List (String × List String))
    (st : List (String × SimNode)) (hinv : allInvP rsInv st) :
    allInvP rsInv (yearStepRS deps st).1 ∧ stRel st (yearStepRS deps st).1 :=
  foldl_step_rel (processNodeRS deps)
    (fun a => allInvP rsInv a.1) (fun a b => stRel a.1 b.1)
    (fun a => stRel_refl a.1) (fun hab hbc => stRel_trans hab hbc)
    (fun a x ha => processNodeRS_step deps a x ha)
    (dictKeys st) (st, []) hinv

theorem seedRS_allInv (nodes : List (String × InputNode)) :
    allInvP rsInv (seedRS nodes) := by
  intro nid n hn
  refine dictLookup_forallP rsInv (seedRS nodes) ?_ nid n hn
  intro p hp
  simp only [seedRS, List.mem_map] at hp
  obtain ⟨q, _, rfl⟩ := hp
  exact seedNodeRS_inv q.2

theorem seedFwd_allInv (nodes : List (String × InputNode)) :
    allInvP fwdInv (seedFwd nodes) := by
  intro nid n hn
  refine dictLookup_forallP fwdInv (seedFwd nodes) ?_ nid n hn
  intro p hp
  simp only [seedFwd, List.mem_map] at hp
  obtain ⟨q, _, rfl⟩ := hp
  exact seedNodeFwd_inv q.2

theorem runRSAdvance_inv (deps : List (String × List String))
    (nodes : List (String × InputNode)) (k : ℕ) :
    allInvP rsInv (runRSAdvance deps (seedRS nodes) k).1 := by
  induction k with
  | zero => exact seedRS_allInv nodes
  | succ k ih => exact (yearStepRS_rel deps _ ih).1

theorem runRSAdvance_mono (deps : List (String × List String))
    (nodes : List (String × InputNode)) {j k : ℕ} (hjk : j ≤ k) :
    stRel (runRSAdvance deps (seedRS nodes) j).1
      (runRSAdvance deps (seedRS nodes) k).1 := by
  induction hjk with
  | refl => exact stRel_refl _
  | @step m h ih =>
    exact stRel_trans ih (yearStepRS_rel deps _ (runRSAdvance_inv deps nodes m)).2

theorem advanceNodeFwd_step (deps : List (String × List String))
    (st : List (String × SimNode)) (nid : String) (hinv : allInvP fwdInv st) :
    allInvP fwdInv (advanceNodeFwd deps st nid) ∧
    stRel st (advanceNodeFwd deps st nid) := by
  cases hl : dictLookup st nid with
  | none =>
    simp only [advanceNodeFwd, hl]
    exact ⟨hinv, stRel_refl _⟩
  | some n =>
    simp only [advanceNodeFwd, hl]
    split_ifs with h1 h2 h3
    · exact ⟨hinv, stRel_refl _⟩
    · have hn := hinv nid n hl
      rw [Bool.and_eq_true] at h3
      have htr : 0 < n.time_remaining := of_decide_eq_true h3.2
      obtain ⟨hrel, hinv2⟩ := fwdAdvanceFields_step n hn htr
      exact dictInsert_step fwdInv st nid n _ hl hrel hinv2 hinv
    · exact ⟨hinv, stRel_refl _⟩
    · exact ⟨hinv, stRel_refl _⟩

theorem advanceTech_rel (deps : List (String × List String))
    (st : List (String × SimNode)) (hinv : allInvP fwdInv st) :
    allInvP fwdInv (advanceTechnologiesOneYear deps st) ∧
    stRel st (advanceTechnologiesOneYear deps st) :=
  foldl_step_rel (advanceNodeFwd deps) (allInvP fwdInv) stRel
    stRel_refl (fun hab hbc => stRel_trans hab hbc)
    (fun a x ha => advanceNodeFwd_step deps a x ha)
    (dictKeys st) st hinv

theorem checkNodeDeploy_step (deps : List (String × List String)) (year : Int)
    (acc : List (String × SimNode) × CPCache × List String) (nid : String)
    (hinv : allInvP fwdInv acc.1) :
    allInvP fwdInv (checkNodeDeploy deps year acc nid).1 ∧
    stRel acc.1 (checkNodeDeploy deps year acc nid).1 := by
  cases hl : dictLookup acc.1 nid with
  | none =>
    simp only [checkNodeDeploy, hl]
    exact ⟨hinv, stRel_refl _⟩
  | some n =>
    simp only [checkNodeDeploy, hl]
    split_ifs with h1 h2 h3 h4
    · exact ⟨hinv, stRel_refl _⟩
    · have hn := hinv nid n hl
      obtain ⟨hi, hp0, hp1⟩ := hn
      refine dictInsert_step fwdInv acc.1 nid n _ hl ?_ ?_ hinv
      · exact ⟨le_refl _, le_refl _, fun h => h, rfl, rfl, rfl, rfl, rfl⟩
      · exact ⟨hi, hp0, hp1⟩
    · exact ⟨hinv, stRel_refl _⟩
    · exact ⟨hinv, stRel_refl _⟩
    · exact ⟨hinv, stRel_refl _⟩

theorem checkForDeployments_rel (deps : List (String × List String))
    (st : List (String × SimNode)) (cache : CPCache) (year : Int)
    (hinv : allInvP fwdInv st) :
    allInvP fwdInv (checkForDeployments deps st cache year).1 ∧
    stRel st (checkForDeployments deps st cache year).1 :=
  foldl_step_rel (checkNodeDeploy deps year)
    (fun a => allInvP fwdInv a.1) (fun a b => stRel a.1 b.1)
    (fun a => stRel_refl a.1) (fun hab hbc => stRel_trans hab hbc)
    (fun a x ha => checkNodeDeploy_step deps year a x ha)
    (dictKeys st) (st, cache, []) hinv

theorem fwdYearStep_st (deps : List (String × List String)) (accel : Option String)
    (startYear : Int) (off : ℕ) (fs : FwdState) :
    ((fwdYearStep deps accel startYear off fs).1).st =
      (checkForDeployments deps
        (advanceTechnologiesOneYear deps (accelStage accel off fs.st))
        fs.cache (startYear + off)).1 := by
  cases accel <;> rfl

theorem accelStage_rel (accel : Option String) (off : ℕ)
    (st : List (String × SimNode)) (hinv : allInvP fwdInv st) :
    allInvP fwdInv (accelStage accel off st) ∧ stRel st (accelStage accel off st) := by
  cases accel with
  | none =>
    simp only [accelStage]
    exact ⟨hinv, stRel_refl st⟩
  | some t =>
    simp only [accelStage]
    split_ifs with h
    · exact dictUpdate_step fwdInv st t applyAcceleration
        (fun m hm => (applyAcceleration_step m hm).symm) hinv
    · exact ⟨hinv, stRel_refl st⟩

theorem fwdYearStep_rel (deps : List (String × List String)) (accel : Option String)
    (startYear : Int) (off : ℕ) (fs : FwdState) (hinv : allInvP fwdInv fs.st) :
    allInvP fwdInv ((fwdYearStep deps accel startYear off fs).1).st ∧
    stRel fs.st ((fwdYearStep deps accel startYear off fs).1).st := by
  rw [fwdYearStep_st]
  obtain ⟨h1, r1⟩ := accelStage_rel accel off fs.st hinv
  obtain ⟨h2, r2⟩ := advanceTech_rel deps _ h1
  obtain ⟨h3, r3⟩ := checkForDeployments_rel deps _ fs.cache (startYear + off) h2
  exact ⟨h3, stRel_trans r1 (stRel_trans r2 r3)⟩

theorem fwdStateAt_inv (nodes : List (String × InputNode))
    (deps : List (String × List String)) (startYear : Int) (accel : Option String)
    (cache0 : CPCache) (k : ℕ) :
    allInvP fwdInv (fwdStateAt nodes deps startYear accel cache0 k).st := by
  induction k with
  | zero => exact seedFwd_allInv nodes
  | succ k ih => exact (fwdYearStep_rel deps accel startYear k _ ih).1

theorem fwdStateAt_mono (nodes : List (String × InputNode))
    (deps : List (String × List String)) (startYear : Int) (accel : Option String)
    (cache0 : CPCache) {j k : ℕ} (hjk : j ≤ k) :
    stRel (fwdStateAt nodes deps startYear accel cache0 j).st
      (fwdStateAt nodes deps startYear accel cache0 k).st := by
  induction hjk with
  | refl => exact stRel_refl _
  | @step m h ih =>
    exact stRel_trans ih
      (fwdYearStep_rel deps accel startYear m _
        (fwdStateAt_inv nodes deps startYear accel cache0 m)).2

theorem rsA8_seed : seedRS nodesA8 = [("A", a8Seed)] := by
  simp [seedRS, seedNodeRS, nodesA8, nodeA8, a8Seed, buildNodesDict, dictInsert,
    runSimRawEstimate, trlNumeric, parseDecimal, initialProbOfTrl,
    TRL_PROBABILITY_MAP, takeUntilChar, trimChars, splitChar, charDigitVal,
    decDigitsValAux, decDigitsVal, isPySpace, dictLookup, List.find?]
  norm_num

theorem fwdA8_seed : seedFwd nodesA8 = [("A", a8Seed)] := by
  simp [seedFwd, seedNodeFwd, nodesA8, nodeA8, a8Seed, buildNodesDict, dictInsert,
    getInitialTimeEstimate, trlNumeric, parseDecimal, initialProbOfTrl,
    TRL_PROBABILITY_MAP, takeUntilChar, trimChars, splitChar, charDigitVal,
    decDigitsValAux, decDigitsVal, isPySpace, dictLookup, List.find?]
  norm_num

theorem rsA8_year1 :
    yearStepRS depsA8 [("A", a8Seed)] = ([("A", a8Year1)], [("A", "Active")]) := by
  simp [yearStepRS, processNodeRS, depsA8, nodesA8, nodeA8, a8Seed, a8Year1,
    dictInsert, dictKeys, dictLookup, List.find?, buildDependencyMap,
    buildNodesDict, isTracked, prereqsAllComplete, rsAdvanceFields, riskRate,
    initialProbOfTrl, TRL_PROBABILITY_MAP, takeUntilChar, trimChars, splitChar,
    flatEdges, depContribs, depAction, effTargets, truthyStr]
  norm_num

theorem rsA8_year2 :
    yearStepRS depsA8 [("A", a8Year1)] = ([("A", a8Year2)], [("A", "Active")]) := by
  simp [yearStepRS, processNodeRS, depsA8, nodesA8, nodeA8, a8Year1, a8Year2,
    dictInsert, dictKeys, dictLookup, List.find?, buildDependencyMap,
    buildNodesDict, isTracked, prereqsAllComplete, rsAdvanceFields, riskRate,
    initialProbOfTrl, TRL_PROBABILITY_MAP, takeUntilChar, trimChars, splitChar,
    flatEdges, depContribs, depAction, effTargets, truthyStr]
  norm_num

theorem rsA8_year3 :
    yearStepRS depsA8 [("A", a8Year2)] = ([("A", a8Year3)], [("A", "Active")]) := by
  simp [yearStepRS, processNodeRS, depsA8, nodesA8, nodeA8, a8Year2, a8Year3,
    dictInsert, dictKeys, dictLookup, List.find?, buildDependencyMap,
    buildNodesDict, isTracked, prereqsAllComplete, rsAdvanceFields, riskRate,
    initialProbOfTrl, TRL_PROBABILITY_MAP, takeUntilChar, trimChars, splitChar,
    flatEdges, depContribs, depAction, effTargets, truthyStr]
  norm_num

theorem rsA8_at1 : (runRSAdvance depsA8 (seedRS nodesA8) 1).1 = [("A", a8Year1)] := by
  have h : (runRSAdvance depsA8 (seedRS nodesA8) 1).1 =
      (yearStepRS depsA8 (seedRS nodesA8)).1 := rfl
  rw [h, rsA8_seed, rsA8_year1]

theorem rsA8_at2 : (runRSAdvance depsA8 (seedRS nodesA8) 2).1 = [("A", a8Year2)] := by
  have h : (runRSAdvance depsA8 (seedRS nodesA8) 2).1 =
      (yearStepRS depsA8 (runRSAdvance depsA8 (seedRS nodesA8) 1).1).1 := rfl
  rw [h, rsA8_at1, rsA8_year2]

theorem rsA8_at3 : (runRSAdvance depsA8 (seedRS nodesA8) 3).1 = [("A", a8Year3)] := by
  have h : (runRSAdvance depsA8 (seedRS nodesA8) 3).1 =
      (yearStepRS depsA8 (runRSAdvance depsA8 (seedRS nodesA8) 2).1).1 := rfl
  rw [h, rsA8_at2, rsA8_year3]

theorem fwdA8_year1 :
    (fwdYearStep depsA8 none 2025 0 ⟨[("A", a8Seed)], []⟩).1 =
      ⟨[("A", a8Year1)], []⟩ := by
  have hms : ¬ ("Milestone" : String) = "ReactorConcept" := by decide
  simp [fwdYearStep, advanceTechnologiesOneYear, advanceNodeFwd,
    checkForDeployments, checkNodeDeploy, depsA8, nodesA8, nodeA8, a8Seed,
    a8Year1, dictInsert, dictKeys, dictLookup, List.find?, buildDependencyMap,
    buildNodesDict, isTracked, prereqsAllComplete, fwdAdvanceFields,
    applyAcceleration, riskRate, initialProbOfTrl, TRL_PROBABILITY_MAP,
    takeUntilChar, trimChars, splitChar, flatEdges, depContribs, depAction,
    effTargets, truthyStr, truthyYear]
  norm_num
  rw [if_neg hms]
  exact ⟨rfl, rfl⟩

theorem fwdA8_at1 : fwdStateAt nodesA8 depsA8 2025 none [] 1 =
    ⟨[("A", a8Year1)], []⟩ := by
  have h : fwdStateAt nodesA8 depsA8 2025 none [] 1 =
      (fwdYearStep depsA8 none 2025 0 ⟨seedFwd nodesA8, []⟩).1 := rfl
  rw [h, fwdA8_seed, fwdA8_year1]

/-- C3: across the years of one run, in both the Year-by-Year Scheduler and the
Strategic Forward Simulator, every node's `time_remaining` is monotonically
non-increasing and its `prob_of_success` is monotonically non-decreasing and
stays within `[0, 1]`; but the clock is not floored at `0` — the completing
decrement can leave it strictly negative, bounded below only by staying above
`-1` whenever it starts above `-1` (it drops by at most one past the years
actually needed). -/
theorem C3_clock_prob_monotone_invariant :
    (∀ (nodes : List (String × InputNode)) (deps : List (String × List String))
        (j k : ℕ) (nid : String) (a b : SimNode), j ≤ k →
        dictLookup (runRSAdvance deps (seedRS nodes) j).1 nid = some a →
        dictLookup (runRSAdvance deps (seedRS nodes) k).1 nid = some b →
        b.time_remaining ≤ a.time_remaining ∧
        a.prob_of_success ≤ b.prob_of_success ∧
        0 ≤ b.prob_of_success ∧ b.prob_of_success ≤ 1 ∧
        (-1 < a.time_remaining → -1 < b.time_remaining)) ∧
    (∀ (nodes : List (String × InputNode)) (deps : List (String × List String))
        (startYear : Int) (accel : Option String) (cache0 : CPCache)
        (j k : ℕ) (nid : String) (a b : SimNode), j ≤ k →
        dictLookup (fwdStateAt nodes deps startYear accel cache0 j).st nid = some a →
        dictLookup (fwdStateAt nodes deps startYear accel cache0 k).st nid = some b →
        b.time_remaining ≤ a.time_remaining ∧
        a.prob_of_success ≤ b.prob_of_success ∧
        0 ≤ b.prob_of_success ∧ b.prob_of_success ≤ 1 ∧
        (-1 < a.time_remaining → -1 < b.time_remaining)) := by
  constructor
  · intro nodes deps j k nid a b hjk ha hb
    obtain ⟨m, hm, hrel⟩ := ((runRSAdvance_mono deps nodes hjk) nid).1 a ha
    rw [hb] at hm
    cases hm
    have hconc := runRSAdvance_inv deps nodes k nid b hb
    obtain ⟨tle, ple, hguard, _⟩ := hrel
    exact ⟨tle, ple, hconc.2.1, hconc.2.2.1, hguard⟩
  · intro nodes deps startYear accel cache0 j k nid a b hjk ha hb
    obtain ⟨m, hm, hrel⟩ :=
      ((fwdStateAt_mono nodes deps startYear accel cache0 hjk) nid).1 a ha
    rw [hb] at hm
    cases hm
    have hconc := fwdStateAt_inv nodes deps startYear accel cache0 k nid b hb
    obtain ⟨tle, ple, hguard, _⟩ := hrel
    exact ⟨tle, ple, hconc.2.1, hconc.2.2, hguard⟩

/-- Counterexample to the claimed floor at `0`: after the third simulated year
of `run_simulation` on the single TRL-8 milestone `A` (estimate `2.5` years),
the recorded `time_remaining` is `-0.5 < 0`. -/
theorem C3_negative_clock_counterexample :
    ∃ n, dictLookup (runRSAdvance depsA8 (seedRS nodesA8) 3).1 "A" = some n ∧
      n.time_remaining < 0 := by
  refine ⟨a8Year3, ?_, by norm_num [a8Year3]⟩
  rw [rsA8_at3]
  simp [dictLookup, List.find?]

/-- Witness: the monotonicity theorem applied to node `A` of `nodesA8` between
years `0` and `1` of both schedulers, on the concretely evaluated snapshots. -/
theorem C3_clock_prob_monotone_witness :
    (a8Year1.time_remaining ≤ a8Seed.time_remaining ∧
     a8Seed.prob_of_success ≤ a8Year1.prob_of_success ∧
     0 ≤ a8Year1.prob_of_success ∧ a8Year1.prob_of_success ≤ 1 ∧
     -1 < a8Year1.time_remaining) ∧
    (a8Year1.time_remaining ≤ a8Seed.time_remaining ∧
     a8Seed.prob_of_success ≤ a8Year1.prob_of_success ∧
     0 ≤ a8Year1.prob_of_success ∧ a8Year1.prob_of_success ≤ 1 ∧
     -1 < a8Year1.time_remaining) := by
  have h0rs : dictLookup (runRSAdvance depsA8 (seedRS nodesA8) 0).1 "A" =
      some a8Seed := by
    have h : (runRSAdvance depsA8 (seedRS nodesA8) 0).1 = seedRS nodesA8 := rfl
    rw [h, rsA8_seed]
    simp [dictLookup, List.find?]
  have h1rs : dictLookup (runRSAdvance depsA8 (seedRS nodesA8) 1).1 "A" =
      some a8Year1 := by
    rw [rsA8_at1]
    simp [dictLookup, List.find?]
  have h0f : dictLookup (fwdStateAt nodesA8 depsA8 2025 none [] 0).st "A" =
      some a8Seed := by
    have h : (fwdStateAt nodesA8 depsA8 2025 none [] 0).st = seedFwd nodesA8 := rfl
    rw [h, fwdA8_seed]
    simp [dictLookup, List.find?]
  have h1f : dictLookup (fwdStateAt nodesA8 depsA8 2025 none [] 1).st "A" =
      some a8Year1 := by
    rw [fwdA8_at1]
    simp [dictLookup, List.find?]
  have hrs := C3_clock_prob_monotone_invariant.1 nodesA8 depsA8 0 1 "A"
    a8Seed a8Year1 (by norm_num) h0rs h1rs
  have hf := C3_clock_prob_monotone_invariant.2 nodesA8 depsA8 2025 none [] 0 1 "A"
    a8Seed a8Year1 (by norm_num) h0f h1f
  exact ⟨⟨hrs.1, hrs.2.1, hrs.2.2.1, hrs.2.2.2.1,
      hrs.2.2.2.2 (by norm_num [a8Seed])⟩,
    ⟨hf.1, hf.2.1, hf.2.2.1, hf.2.2.2.1, hf.2.2.2.2 (by norm_num [a8Seed])⟩⟩

/-! ## C4: the impact-table entry of the second per-year loop -/

theorem mc_seed : seedRS nodesMC = [("M", mcM (15/2) (49/50)), ("C", mcC)] := by
  simp [seedRS, seedNodeRS, nodesMC, nodeM, nodeC, mcM, mcC, buildNodesDict,
    dictInsert, runSimRawEstimate, trlNumeric, parseDecimal, initialProbOfTrl,
    TRL_PROBABILITY_MAP, takeUntilChar, trimChars, splitChar, charDigitVal,
    decDigitsValAux, decDigitsVal, isPySpace, dictLookup, List.find?]
  norm_num

theorem mc_step (t p t2 p2 : ℚ) (h1 : 0 < t) (h2 : ¬ t - 1 ≤ 0)
    (h3 : t2 = t - 1) (h4 : p2 = p + 1/375) :
    yearStepRS depsMC [("M", mcM t p), ("C", mcC)] =
      ([("M", mcM t2 p2), ("C", mcC)], [("M", "Active")]) := by
  subst h3 h4
  simp [yearStepRS, processNodeRS, depsMC, nodesMC, nodeM, nodeC, mcM, mcC,
    dictInsert, dictKeys, dictLookup, List.find?, buildDependencyMap,
    buildNodesDict, isTracked, prereqsAllComplete, rsAdvanceFields, riskRate,
    initialProbOfTrl, TRL_PROBABILITY_MAP, takeUntilChar, trimChars, splitChar,
    flatEdges, depContribs, depAction, effTargets, truthyStr, h1, h2]
  norm_num

theorem mc_at7 : mcYear7 = ([("M", mcM (1/2) (749/750)), ("C", mcC)],
    [("M", "Active")]) := by
  have e1 : (runRSAdvance depsMC (seedRS nodesMC) 1).1 =
      [("M", mcM (13/2) (737/750)), ("C", mcC)] := by
    have h : (runRSAdvance depsMC (seedRS nodesMC) 1).1 =
        (yearStepRS depsMC (seedRS nodesMC)).1 := rfl
    rw [h, mc_seed,
      mc_step (15/2) (49/50) (13/2) (737/750) (by norm_num) (by norm_num)
        (by norm_num) (by norm_num)]
  have e2 : (runRSAdvance depsMC (seedRS nodesMC) 2).1 =
      [("M", mcM (11/2) (739/750)), ("C", mcC)] := by
    have h : (runRSAdvance depsMC (seedRS nodesMC) 2).1 =
        (yearStepRS depsMC (runRSAdvance depsMC (seedRS nodesMC) 1).1).1 := rfl
    rw [h, e1,
      mc_step (13/2) (737/750) (11/2) (739/750) (by norm_num) (by norm_num)
        (by norm_num) (by norm_num)]
  have e3 : (runRSAdvance depsMC (seedRS nodesMC) 3).1 =
      [("M", mcM (9/2) (741/750)), ("C", mcC)] := by
    have h : (runRSAdvance depsMC (seedRS nodesMC) 3).1 =
        (yearStepRS depsMC (runRSAdvance depsMC (seedRS nodesMC) 2).1).1 := rfl
    rw [h, e2,
      mc_step (11/2) (739/750) (9/2) (741/750) (by norm_num) (by norm_num)
        (by norm_num) (by norm_num)]
  have e4 : (runRSAdvance depsMC (seedRS nodesMC) 4).1 =
      [("M", mcM (7/2) (743/750)), ("C", mcC)] := by
    have h : (runRSAdvance depsMC (seedRS nodesMC) 4).1 =
        (yearStepRS depsMC (runRSAdvance depsMC (seedRS nodesMC) 3).1).1 := rfl
    rw [h, e3,
      mc_step (9/2) (741/750) (7/2) (743/750) (by norm_num) (by norm_num)
        (by norm_num) (by norm_num)]
  have e5 : (runRSAdvance depsMC (seedRS nodesMC) 5).1 =
      [("M", mcM (5/2) (745/750)), ("C", mcC)] := by
    have h : (runRSAdvance depsMC (seedRS nodesMC) 5).1 =
        (yearStepRS depsMC (runRSAdvance depsMC (seedRS nodesMC) 4).1).1 := rfl
    rw [h, e4,
      mc_step (7/2) (743/750) (5/2) (745/750) (by norm_num) (by norm_num)
        (by norm_num) (by norm_num)]
  have e6 : (runRSAdvance depsMC (seedRS nodesMC) 6).1 =
      [("M", mcM (3/2) (747/750)), ("C", mcC)] := by
    have h : (runRSAdvance depsMC (seedRS nodesMC) 6).1 =
        (yearStepRS depsMC (runRSAdvance depsMC (seedRS nodesMC) 5).1).1 := rfl
    rw [h, e5,
      mc_step (5/2) (745/750) (3/2) (747/750) (by norm_num) (by norm_num)
        (by norm_num) (by norm_num)]
  have h : mcYear7 =
      yearStepRS depsMC (runRSAdvance depsMC (seedRS nodesMC) 6).1 := rfl
  rw [h, e6,
    mc_step (3/2) (747/750) (1/2) (749/750) (by norm_num) (by norm_num)
      (by norm_num) (by norm_num)]

theorem mc_accel :
    accelerateForImpact [("M", mcM (1/2) (749/750)), ("C", mcC)] "M" =
      [("M", mcM (-1/2) (751/750)), ("C", mcC)] := by
  simp [accelerateForImpact, dictUpdate, mcM, mcC, riskRate, initialProbOfTrl,
    TRL_PROBABILITY_MAP, takeUntilChar, trimChars, splitChar, dictLookup,
    List.find?]
  norm_num

theorem mc_downstream : getDownstreamConcepts nodesMC succMC "M" = ["C"] := by
  simp [getDownstreamConcepts, bfsConcepts, bfsFuel, succMC, nodesMC, nodeM,
    nodeC, buildSuccessorMap, buildNodesDict, dictInsert, dictKeys, dictLookup,
    List.find?, flatEdges, succContribs, succAction, effTargets, truthyStr,
    edgeMC]


theorem mc_cp_base :
    findCriticalPathTop ⟨depsMC, [("M", mcM (1/2) (749/750)), ("C", mcC)]⟩ [] "C" =
      (some (((1 : ℚ) : WithTop ℚ), (749/1250 : ℚ)),
       [("C", (((1 : ℚ) : WithTop ℚ), (749/1250 : ℚ)))]) := by
  simp [findCriticalPathTop, cpFuel, findCriticalPath, evalListCP, pyMaxTimes,
    pyProd, depsMC, nodesMC, nodeM, nodeC, mcM, mcC, buildDependencyMap,
    buildNodesDict, dictInsert, dictKeys, dictLookup, List.find?, flatEdges,
    depContribs, depAction, effTargets, truthyStr, edgeMC]
  norm_num
  norm_cast
  norm_num

theorem mc_cp_accel :
    findCriticalPathTop ⟨depsMC, [("M", mcM (-1/2) (751/750)), ("C", mcC)]⟩ [] "C" =
      (some (((0 : ℚ) : WithTop ℚ), (751/1250 : ℚ)),
       [("C", (((0 : ℚ) : WithTop ℚ), (751/1250 : ℚ)))]) := by
  simp [findCriticalPathTop, cpFuel, findCriticalPath, evalListCP, pyMaxTimes,
    pyProd, depsMC, nodesMC, nodeM, nodeC, mcM, mcC, buildDependencyMap,
    buildNodesDict, dictInsert, dictKeys, dictLookup, List.find?, flatEdges,
    depContribs, depAction, effTargets, truthyStr, edgeMC]
  norm_num
  norm_cast
  norm_num

theorem discounted_at_2026 :
    calculateDiscountedMwh ((2026 : ℚ) : WithTop ℚ) =
      ∑ i in Finset.range 60, ((7884000 : ℝ) / (21/20 : ℝ) ^ (i + 1)) := by
  have hunfold : calculateDiscountedMwh ((2026 : ℚ) : WithTop ℚ) =
      ∑ i in (Finset.range YEARS_OF_OPERATION).filter
          (fun (i : ℕ) => CURRENT_YEAR < 2026 + (i : ℚ)),
        ((AVG_PLANT_CAPACITY_MW * CAPACITY_FACTOR * 24 * 365 : ℚ) : ℝ) /
          ((1 + DISCOUNT_RATE : ℚ) : ℝ) ^ (((2026 + (i : ℚ) - CURRENT_YEAR : ℚ)) : ℝ) := rfl
  rw [hunfold]
  rw [Finset.filter_true_of_mem (fun i _ => by
    show CURRENT_YEAR < 2026 + (i : ℚ)
    have : (0 : ℚ) ≤ (i : ℚ) := Nat.cast_nonneg i
    simp only [CURRENT_YEAR]
    linarith)]
  refine Finset.sum_congr rfl (fun i _ => ?_)
  have hexp : ((2026 + (i : ℚ) - CURRENT_YEAR : ℚ) : ℝ) = ((i + 1 : ℕ) : ℝ) := by
    simp only [CURRENT_YEAR]
    push_cast
    ring
  rw [hexp, Real.rpow_natCast]
  norm_num [AVG_PLANT_CAPACITY_MW, CAPACITY_FACTOR, DISCOUNT_RATE]

theorem discounted_at_2025 :
    calculateDiscountedMwh ((2025 : ℚ) : WithTop ℚ) =
      ∑ i in Finset.range 59, ((7884000 : ℝ) / (21/20 : ℝ) ^ (i + 1)) := by
  have hunfold : calculateDiscountedMwh ((2025 : ℚ) : WithTop ℚ) =
      ∑ i in (Finset.range YEARS_OF_OPERATION).filter
          (fun (i : ℕ) => CURRENT_YEAR < 2025 + (i : ℚ)),
        ((AVG_PLANT_CAPACITY_MW * CAPACITY_FACTOR * 24 * 365 : ℚ) : ℝ) /
          ((1 + DISCOUNT_RATE : ℚ) : ℝ) ^ (((2025 + (i : ℚ) - CURRENT_YEAR : ℚ)) : ℝ) := rfl
  rw [hunfold]
  have hfilter : (Finset.range YEARS_OF_OPERATION).filter
      (fun (i : ℕ) => CURRENT_YEAR < 2025 + (i : ℚ)) = Finset.Ico 1 60 := by
    ext i
    simp only [Finset.mem_filter, Finset.mem_range, Finset.mem_Ico, CURRENT_YEAR,
      YEARS_OF_OPERATION, lt_add_iff_pos_right, Nat.cast_pos]
    omega
  rw [hfilter, Finset.sum_Ico_eq_sum_range]
  refine Finset.sum_congr (by norm_num) (fun i _ => ?_)
  have hexp : ((2025 + ((1 + i : ℕ) : ℚ) - CURRENT_YEAR : ℚ) : ℝ) = ((i + 1 : ℕ) : ℝ) := by
    simp only [CURRENT_YEAR]
    push_cast
    ring
  rw [hexp, Real.rpow_natCast]
  norm_num [AVG_PLANT_CAPACITY_MW, CAPACITY_FACTOR, DISCOUNT_RATE]

theorem mc_base_mwh :
    calculatePathwayMwh ⟨depsMC, [("M", mcM (1/2) (749/750)), ("C", mcC)]⟩ ["C"] =
      (∑ i in Finset.range 60, ((7884000 : ℝ) / (21/20 : ℝ) ^ (i + 1))) *
        ((749/1250 : ℚ) : ℝ) := by
  simp only [calculatePathwayMwh, pathwayFold]
  rw [mc_cp_base]
  simp only [Option.getD_some]
  have harg : ((CURRENT_YEAR : ℚ) : WithTop ℚ) + ((1 : ℚ) : WithTop ℚ) =
      ((2026 : ℚ) : WithTop ℚ) := by
    simp only [CURRENT_YEAR]
    norm_cast
  rw [harg, discounted_at_2026]
  ring

theorem mc_accel_mwh :
    calculatePathwayMwh ⟨depsMC, [("M", mcM (-1/2) (751/750)), ("C", mcC)]⟩ ["C"] =
      (∑ i in Finset.range 59, ((7884000 : ℝ) / (21/20 : ℝ) ^ (i + 1))) *
        ((751/1250 : ℚ) : ℝ) := by
  simp only [calculatePathwayMwh, pathwayFold]
  rw [mc_cp_accel]
  simp only [Option.getD_some]
  have harg : ((CURRENT_YEAR : ℚ) : WithTop ℚ) + ((0 : ℚ) : WithTop ℚ) =
      ((2025 : ℚ) : WithTop ℚ) := by
    simp only [CURRENT_YEAR]
    norm_cast
  rw [harg, discounted_at_2025]
  ring

theorem mc_key_sum_ineq :
    (751 : ℝ) * (∑ i in Finset.range 59, ((7884000 : ℝ) / (21/20 : ℝ) ^ (i + 1))) <
      (749 : ℝ) * (∑ i in Finset.range 60, ((7884000 : ℝ) / (21/20 : ℝ) ^ (i + 1))) := by
  have hterm : ∀ i : ℕ, (7884000 : ℝ) / (21/20 : ℝ) ^ (i + 1) =
      7884000 * ((20/21 : ℝ)) ^ (i + 1) := by
    intro i
    rw [div_eq_mul_inv, ← inv_pow]
    norm_num
  have hpeel : (∑ i in Finset.range 60, ((7884000 : ℝ) / (21/20 : ℝ) ^ (i + 1))) =
      (∑ i in Finset.range 59, ((7884000 : ℝ) / (21/20 : ℝ) ^ (i + 1))) +
        7884000 * ((20/21 : ℝ)) ^ 60 := by
    rw [Finset.sum_range_succ, hterm]
  have hS : (∑ i in Finset.range 59, ((7884000 : ℝ) / (21/20 : ℝ) ^ (i + 1))) =
      7884000 * ((20/21 : ℝ)) * ((((20/21 : ℝ)) ^ 59 - 1) / (((20/21 : ℝ)) - 1)) := by
    have h1 : (∑ i in Finset.range 59, ((7884000 : ℝ) / (21/20 : ℝ) ^ (i + 1))) =
        ∑ i in Finset.range 59, 7884000 * ((20/21 : ℝ)) * ((20/21 : ℝ)) ^ i := by
      refine Finset.sum_congr rfl (fun i _ => ?_)
      rw [hterm, pow_succ]
      ring
    rw [h1, ← Finset.mul_sum]
    rw [geom_sum_eq (by norm_num : (20/21 : ℝ) ≠ 1) 59]
  have hx : (42/791 : ℝ) < ((20/21 : ℝ)) ^ 59 := by norm_num
  have hx1 : ((20/21 : ℝ)) ^ 59 < 1 := by
    apply pow_lt_one₀ (by norm_num) (by norm_num)
    norm_num
  have h60 : ((20/21 : ℝ)) ^ 60 = ((20/21 : ℝ)) ^ 59 * (20/21 : ℝ) := by
    rw [pow_succ]
  rw [hpeel, hS]
  nlinarith [hx, hx1, h60]

/-- Counterexample to the claimed non-negativity: at year 7 of the `M → C`
run, `M` is `Active`, yet its impact quantity
`(accelerated − baseline) / 1,000,000` is strictly negative — accelerating `M`
moves `C`'s deployment year from 2026 to 2025, and the discounting window
`deployment_year + i > currentYear` then drops one operating year, an energy
loss the small probability gain cannot offset. -/
theorem C4_negative_impact_counterexample :
    dictLookup mcYear7.2 "M" = some "Active" ∧
    impactDeltaRS nodesMC depsMC succMC mcYear7.1 "M" < 0 := by
  constructor
  · rw [mc_at7]
    simp [dictLookup, List.find?]
  · have hst : mcYear7.1 = [("M", mcM (1/2) (749/750)), ("C", mcC)] := by
      rw [mc_at7]
    rw [hst]
    simp only [impactDeltaRS]
    rw [mc_downstream, mc_accel, mc_accel_mwh, mc_base_mwh]
    apply div_neg_of_neg_of_pos
    · have hk := mc_key_sum_ineq
      push_cast
      nlinarith [hk]
    · norm_num [MWH_TO_TWH]

/-- **C4** (amended): an entry appears in a node's impact row for a simulated
year exactly when the node is present, tracked, incomplete and `Active` that
year with at least one downstream concept, and the quantity
`(acceleratedOutput − baselineOutput) / 1,000,000` — the accelerated output
computed on a copy in which only this node is advanced one extra year —
strictly exceeds the `0.001` TWh noise floor; the recorded value is exactly
that quantity.  (Its non-negativity is refuted separately.) -/
theorem C4_impact_entry_characterization :
    ∀ (nodesDict : List (String × InputNode)) (deps : List (String × List String))
      (succ : List (String × List (Option String)))
      (st : List (String × SimNode)) (statuses : List (String × String))
      (nid : String) (v : ℝ),
      impactEntryRS nodesDict deps succ st statuses nid = some v ↔
      ∃ n, dictLookup st nid = some n ∧ isTracked n = true ∧
        n.is_complete = false ∧
        dictLookup statuses n.label = some "Active" ∧
        getDownstreamConcepts nodesDict succ nid ≠ [] ∧
        (1/1000 : ℝ) < v ∧
        v = (calculatePathwayMwh ⟨deps, accelerateForImpact st nid⟩
               (getDownstreamConcepts nodesDict succ nid) -
             calculatePathwayMwh ⟨deps, st⟩
               (getDownstreamConcepts nodesDict succ nid)) /
          ((MWH_TO_TWH : ℚ) : ℝ) := by
  intro nodesDict deps succ st statuses nid v
  have hd : impactDeltaRS nodesDict deps succ st nid =
      (calculatePathwayMwh ⟨deps, accelerateForImpact st nid⟩
         (getDownstreamConcepts nodesDict succ nid) -
       calculatePathwayMwh ⟨deps, st⟩
         (getDownstreamConcepts nodesDict succ nid)) /
        ((MWH_TO_TWH : ℚ) : ℝ) := rfl
  cases hl : dictLookup st nid with
  | none =>
    simp only [impactEntryRS, hl]
    constructor
    · intro h
      simp at h
    · rintro ⟨n, hn, _⟩
      simp at hn
  | some n =>
    simp only [impactEntryRS, hl]
    split_ifs with h1 h2 h3 h4 h5
    · constructor
      · intro h
        simp at h
      · rintro ⟨m, hm, _, hc, _⟩
        rw [Option.some_inj] at hm
        subst hm
        rw [h2] at hc
        simp at hc
    · constructor
      · intro h
        simp at h
      · rintro ⟨m, hm, _, _, _, hne, _⟩
        rw [Option.some_inj] at hm
        subst hm
        exact hne h4
    · constructor
      · intro h
        rw [Option.some_inj] at h
        refine ⟨n, rfl, h1, by simpa using h2, h3, h4, ?_, ?_⟩
        · rw [← h]
          exact h5
        · rw [← h, hd]
      · rintro ⟨m, hm, _, _, _, _, _, hv⟩
        rw [Option.some_inj] at hm
        subst hm
        rw [Option.some_inj, hd]
        exact hv.symm
    · constructor
      · intro h
        simp at h
      · rintro ⟨m, hm, _, _, _, _, hgt, hv⟩
        rw [Option.some_inj] at hm
        subst hm
        rw [hd] at h5
        rw [← hv] at h5
        exact absurd hgt h5
    · constructor
      · intro h
        simp at h
      · rintro ⟨m, hm, _, _, hs, _⟩
        rw [Option.some_inj] at hm
        subst hm
        exact h3 hs
    · constructor
      · intro h
        simp at h
      · rintro ⟨m, hm, ht, _⟩
        rw [Option.some_inj] at hm
        subst hm
        exact h1 ht

end NuclearSched
